import Mathlib

/-!
Shallow embedding of the scheduling core of SakasKiwiN/coroutine
(rCore-Tutorial-v3-ch5): the user-level cooperative coroutine layer
(`os/src/task/coroutine.rs`, `os/src/task/mod.rs`) and the process
syscall layer (`os/src/syscall/process.rs`), together with theorems
settling the frozen claims about the natural-language specification.

Machine integers (`usize`) are modelled as `Nat`; the only place where a
cast matters (`pid as usize` in `sys_waitpid`) is embedded explicitly
with `% 2^64`.  The `__switch` assembly primitive only moves hardware
registers between saved `TaskContext` records; its effect is outside the
state modelled here, so the embedding of a switch is the identity on the
manager state, exactly as in the Rust code where `__switch` does not
touch any manager field.
-/

namespace RCore

/-- `CoroutineStatus` from `os/src/task/coroutine.rs`. -/
inductive CoroutineStatus where
  | Ready
  | Running
  | Blocked
  | Exited
deriving DecidableEq

/-- `TaskContext` from `os/src/task/context.rs`: return address, stack
pointer, and the 12 callee-saved registers. -/
structure TaskContext where
  ra : Nat
  sp : Nat
  s : List Nat
deriving DecidableEq

/-- Address of the external `trap_return` symbol used by
`TaskContext::goto_trap_return`; its concrete value plays no role in any
claim, it is only stored in saved contexts. -/
def trap_return : Nat := 0

/-- `TaskContext::zero_init`. -/
def TaskContext.zero_init : TaskContext :=
  { ra := 0, sp := 0, s := List.replicate 12 0 }

/-- `TaskContext::goto_trap_return`. -/
def TaskContext.goto_trap_return (kstack_ptr : Nat) : TaskContext :=
  { ra := trap_return, sp := kstack_ptr, s := List.replicate 12 0 }

/-- `CoroutineInner` from `os/src/task/coroutine.rs`. -/
structure CoroutineInner where
  status : CoroutineStatus
  context : TaskContext
  stack_base : Nat
  stack_size : Nat
  entry : Nat
  arg : Nat
deriving DecidableEq

/-- `CoroutineControlBlock`: the `UPSafeCell` wrapper is transparent in
the embedding (the aliasing `Arc`s in the Rust queues are modelled by
storing `cid`s in the queues and keeping each block's mutable state in
the master registry, which is sound because `cid`s are globally unique). -/
structure CoroutineControlBlock where
  cid : Nat
  inner : CoroutineInner
deriving DecidableEq

/-- `CoroutineControlBlock::new`.  The Rust function draws `cid` from the
`static mut NEXT_CID` counter (increment, then read); the static is
threaded explicitly, so the function takes the counter and returns the
bumped counter alongside the new block. -/
def CoroutineControlBlock.new (entry arg stack_size stack_base next_cid : Nat) :
    CoroutineControlBlock × Nat :=
  let cid := next_cid + 1
  let stack_top := stack_base + stack_size
  ({ cid := cid
     inner :=
      { status := CoroutineStatus.Ready
        context := TaskContext.goto_trap_return stack_top
        stack_base := stack_base
        stack_size := stack_size
        entry := entry
        arg := arg } }, cid)

/-- `CoroutineManager` from `os/src/task/coroutine.rs`.  The `Arc`-filled
`ready_queue`/`blocked_queue` are represented by the `cid`s of the blocks
they hold; `next_cid` models the `static mut NEXT_CID` counter of
`CoroutineControlBlock::new` (a single counter shared by everything,
like the Rust static). -/
structure CoroutineManager where
  coroutines : List CoroutineControlBlock
  current_coroutine : Option Nat
  ready_queue : List Nat
  blocked_queue : List Nat
  next_stack_base : Nat
  next_cid : Nat
deriving DecidableEq

/-- `CoroutineManager::new` (with the `NEXT_CID` static at its initial 0). -/
def CoroutineManager.new : CoroutineManager :=
  { coroutines := []
    current_coroutine := none
    ready_queue := []
    blocked_queue := []
    next_stack_base := 0x80000000
    next_cid := 0 }

/-- First block with a given `cid` in a registry list (the
`for coroutine in &self.coroutines { if coroutine.cid == cid ... break }`
scan pattern). -/
def findCCB (l : List CoroutineControlBlock) (cid : Nat) :
    Option CoroutineControlBlock :=
  l.find? (fun c => c.cid == cid)

/-- Write a status through the first block with a given `cid` (the Rust
code mutates through the first matching `Arc` and `break`s). -/
def setStatus (l : List CoroutineControlBlock) (cid : Nat)
    (st : CoroutineStatus) : List CoroutineControlBlock :=
  match l with
  | [] => []
  | c :: rest =>
    if c.cid = cid then { c with inner := { c.inner with status := st } } :: rest
    else c :: setStatus rest cid st

/-- Status of the registered block with a given `cid`, if any. -/
def statusOf (m : CoroutineManager) (cid : Nat) : Option CoroutineStatus :=
  (findCCB m.coroutines cid).map (fun c => c.inner.status)

/-- `CoroutineManager::create_coroutine`. -/
def CoroutineManager.create_coroutine (m : CoroutineManager)
    (entry arg stack_size : Nat) : CoroutineControlBlock × CoroutineManager :=
  let stack_base := m.next_stack_base
  let next_stack_base := m.next_stack_base + stack_size
  let (coroutine, next_cid) :=
    CoroutineControlBlock.new entry arg stack_size stack_base m.next_cid
  (coroutine,
    { m with
      next_stack_base := next_stack_base
      next_cid := next_cid
      coroutines := m.coroutines ++ [coroutine]
      ready_queue := m.ready_queue ++ [coroutine.cid] })

/-- `CoroutineManager::prepare_next_coroutine`.  Returns the pair of
(current, next) `cid`s when the Rust function returns `Some(pair)`, plus
the mutated manager.  Note the faithful quirk: when there is no current
coroutine (or the recorded current `cid` is not registered), the ready
front is still popped, marked Running and recorded as current, but the
function returns `none`. -/
def CoroutineManager.prepare_next_coroutine (m : CoroutineManager) :
    Option (Nat × Nat) × CoroutineManager :=
  if m.ready_queue.isEmpty then (none, m)
  else
    let step1 : Option Nat × CoroutineManager :=
      match m.current_coroutine with
      | none => (none, m)
      | some cid =>
        match findCCB m.coroutines cid with
        | none => (none, m)
        | some c =>
          if c.inner.status = CoroutineStatus.Running then
            (some cid,
              { m with
                coroutines := setStatus m.coroutines cid CoroutineStatus.Ready
                ready_queue := m.ready_queue ++ [cid] })
          else (some cid, m)
    let currentOpt := step1.1
    let m1 := step1.2
    match m1.ready_queue with
    | [] => (none, m1)
    | next :: rest =>
      let m2 :=
        { m1 with
          coroutines := setStatus m1.coroutines next CoroutineStatus.Running
          ready_queue := rest
          current_coroutine := some next }
      match currentOpt with
      | some cur => (some (cur, next), m2)
      | none => (none, m2)

/-- `CoroutineManager::block_current_coroutine`. -/
def CoroutineManager.block_current_coroutine (m : CoroutineManager) :
    CoroutineManager :=
  match m.current_coroutine with
  | none => m
  | some cid =>
    match findCCB m.coroutines cid with
    | none => m
    | some _ =>
      { m with
        coroutines := setStatus m.coroutines cid CoroutineStatus.Blocked
        blocked_queue := m.blocked_queue ++ [cid]
        current_coroutine := none }

/-- Remove the first occurrence of `cid` from a queue (the
`blocked_queue.remove(index)` at the first matching index). -/
def removeFirst (l : List Nat) (cid : Nat) : List Nat :=
  match l with
  | [] => []
  | x :: rest => if x = cid then rest else x :: removeFirst rest cid

/-- `CoroutineManager::unblock_coroutine`. -/
def CoroutineManager.unblock_coroutine (m : CoroutineManager) (cid : Nat) :
    Bool × CoroutineManager :=
  if m.blocked_queue.contains cid then
    (true,
      { m with
        coroutines := setStatus m.coroutines cid CoroutineStatus.Ready
        blocked_queue := removeFirst m.blocked_queue cid
        ready_queue := m.ready_queue ++ [cid] })
  else (false, m)

/-- `CoroutineManager::try_resume_coroutine`. -/
def CoroutineManager.try_resume_coroutine (m : CoroutineManager) (cid : Nat) :
    Bool × CoroutineManager :=
  match m.current_coroutine with
  | some current_cid =>
    if current_cid = cid then (false, m)
    else
      let (ok, m1) := m.unblock_coroutine cid
      if ok then (true, m1)
      else if m.ready_queue.contains cid then (true, m)
      else (false, m)
  | none =>
    let (ok, m1) := m.unblock_coroutine cid
    if ok then (true, m1)
    else if m.ready_queue.contains cid then (true, m)
    else (false, m)

/-- `coroutine_yield` from `os/src/task/mod.rs`: prepare the switch pair
and, when one exists, perform `__switch` (which moves only hardware
registers, outside the modelled state) and report `true`. -/
def coroutine_yield (m : CoroutineManager) : Bool × CoroutineManager :=
  let (pair, m1) := m.prepare_next_coroutine
  (pair.isSome, m1)

/-- `coroutine_block` from `os/src/task/mod.rs`. -/
def coroutine_block (m : CoroutineManager) : CoroutineManager :=
  m.block_current_coroutine

/-- `coroutine_resume` from `os/src/task/mod.rs`: `try_resume_coroutine`,
then on success attempt to switch via `coroutine_yield`. -/
def coroutine_resume (m : CoroutineManager) (cid : Nat) :
    Bool × CoroutineManager :=
  let (success, m1) := m.try_resume_coroutine cid
  if success then coroutine_yield m1 else (false, m1)

/-- `coroutine_create` from `os/src/task/mod.rs`. -/
def coroutine_create (m : CoroutineManager) (entry arg stack_size : Nat) :
    CoroutineControlBlock × CoroutineManager :=
  m.create_coroutine entry arg stack_size

/-- `sys_coroutine_create` from `os/src/syscall/process.rs`. -/
def sys_coroutine_create (m : CoroutineManager) (entry arg stack_size : Nat) :
    Int × CoroutineManager :=
  let (coroutine, m1) := coroutine_create m entry arg stack_size
  ((coroutine.cid : Int), m1)

/-- `sys_coroutine_yield` from `os/src/syscall/process.rs`. -/
def sys_coroutine_yield (m : CoroutineManager) : Int × CoroutineManager :=
  let (ok, m1) := coroutine_yield m
  (if ok then 0 else -1, m1)

/-- `sys_coroutine_resume` from `os/src/syscall/process.rs`. -/
def sys_coroutine_resume (m : CoroutineManager) (cid : Nat) :
    Int × CoroutineManager :=
  let (ok, m1) := coroutine_resume m cid
  (if ok then 0 else -1, m1)

/-- `sys_coroutine_exit` from `os/src/syscall/process.rs`:
`coroutine_block()` then `coroutine_yield()`. -/
def sys_coroutine_exit (m : CoroutineManager) (exit_code : Int) :
    Int × CoroutineManager :=
  let m1 := coroutine_block m
  let (ok, m2) := coroutine_yield m1
  (if ok then exit_code else -1, m2)

/-- The coroutine-manager operations reachability is stated over. -/
inductive Op where
  | create (entry arg stack_size : Nat)
  | yieldOp
  | blockOp
  | resumeOp (cid : Nat)
  | exitOp (exit_code : Int)
deriving DecidableEq

/-- State transition of one operation (return values discarded). -/
def applyOp (m : CoroutineManager) : Op → CoroutineManager
  | Op.create entry arg stack_size => (sys_coroutine_create m entry arg stack_size).2
  | Op.yieldOp => (sys_coroutine_yield m).2
  | Op.blockOp => coroutine_block m
  | Op.resumeOp cid => (sys_coroutine_resume m cid).2
  | Op.exitOp exit_code => (sys_coroutine_exit m exit_code).2

/-- Run a sequence of operations from the freshly initialised manager. -/
def runOps (ops : List Op) : CoroutineManager :=
  ops.foldl applyOp CoroutineManager.new

/-- `TaskStatus` of a process.  Modelled from the spec: `os/src/task/task.rs`
is not among the sources; §3 gives `status: {Ready, Running, Zombie}`. -/
inductive TaskStatus where
  | Ready
  | Running
  | Zombie
deriving DecidableEq

/-- The view of a child `TaskControlBlock` that `sys_waitpid` consumes.
Modelled from the spec (`os/src/task/task.rs` is not among the sources):
§3 gives `pid`, `status`, `exit_code` (meaningful once Zombie) and the
owning-reference discipline; `strong_count` is the `Arc` strong count
observed at reap time, right after removal from the `children` list. -/
structure ChildProc where
  pid : Nat
  status : TaskStatus
  exit_code : Int
  strong_count : Nat
deriving DecidableEq

/-- `TaskControlBlockInner::is_zombie`.  Modelled from the spec:
`task.rs` is not among the sources; it tests `status == Zombie`. -/
def ChildProc.is_zombie (p : ChildProc) : Bool :=
  p.status == TaskStatus.Zombie

/-- The match predicate of `sys_waitpid`:
`pid == -1 || pid as usize == p.getpid()`.  The `isize`-to-`usize` cast
is two's-complement reinterpretation, i.e. reduction mod `2^64`. -/
def pidMatches (pid : Int) (p : ChildProc) : Bool :=
  pid == -1 || (pid.emod (2 ^ 64)).toNat == p.pid

/-- The `children.iter().enumerate().find(...)` scan of `sys_waitpid`:
first index and child for which the child is a Zombie matching `pid`. -/
def findZombie (pid : Int) : List ChildProc → Option (Nat × ChildProc)
  | [] => none
  | p :: rest =>
    if p.is_zombie && pidMatches pid p then some (0, p)
    else (findZombie pid rest).map (fun ic => (ic.1 + 1, ic.2))

/-- Outcome of `sys_waitpid`: either the `assert_eq!(Arc::strong_count(&child), 1)`
trips (kernel panic), or a return value together with the caller's
updated `children` list and the write performed through the translated
`exit_code_ptr` (location, value), if any. -/
inductive WaitpidResult where
  | panicked
  | ret (val : Int) (children : List ChildProc) (written : Option (Nat × Int))
deriving DecidableEq

/-- `sys_waitpid` from `os/src/syscall/process.rs`.  The write
`*translated_refmut(token, exit_code_ptr) = exit_code` is recorded as the
pair `(exit_code_ptr, exit_code)`; the address translation is an
out-of-scope collaborator. -/
def sys_waitpid (pid : Int) (exit_code_ptr : Nat)
    (children : List ChildProc) : WaitpidResult :=
  if !children.any (fun p => pidMatches pid p) then
    WaitpidResult.ret (-1) children none
  else
    match findZombie pid children with
    | some (idx, child) =>
      if child.strong_count == 1 then
        WaitpidResult.ret (child.pid : Int) (children.eraseIdx idx)
          (some (exit_code_ptr, child.exit_code))
      else WaitpidResult.panicked
    | none => WaitpidResult.ret (-2) children none

/-- The trap context slice `sys_fork` touches: the 32 general registers
(`trap_cx.x`), as a function from register index to value. -/
structure TrapContext where
  x : Nat → Nat

/-- The view of a `TaskControlBlock` that `sys_fork` consumes: identifier
and trap context.  Modelled from the spec (`os/src/task/task.rs` is not
among the sources). -/
structure ForkTCB where
  pid : Nat
  trap_cx : TrapContext

/-- `TaskControlBlock::fork`.  Modelled from the spec (`task.rs` is not
among the sources): clone the calling PCB's address space and state into
a new PCB with a freshly allocated identifier; `fresh_pid` stands for the
value handed out by the pid allocator, which by §3 is distinct from every
currently allocated pid. -/
def ForkTCB.fork (parent : ForkTCB) (fresh_pid : Nat) : ForkTCB :=
  { parent with pid := fresh_pid }

/-- `add_task`.  Modelled from the spec (`os/src/task/manager.rs` is not
among the sources): append to the Task Manager's ready FIFO tail. -/
def add_task (ready : List ForkTCB) (t : ForkTCB) : List ForkTCB :=
  ready ++ [t]

/-- `sys_fork` from `os/src/syscall/process.rs`: fork the current task,
set `trap_cx.x[10] = 0` in the child, `add_task` it, and return the
child's pid to the parent.  `sys_fork` performs no context switch, so it
returns in the parent; the returned triple is (parent's return value,
the child block as enqueued, updated ready FIFO). -/
def sys_fork (parent : ForkTCB) (fresh_pid : Nat) (ready : List ForkTCB) :
    Int × ForkTCB × List ForkTCB :=
  let new_task := parent.fork fresh_pid
  let new_pid := new_task.pid
  let new_task :=
    { new_task with
      trap_cx := { x := fun i => if i = 10 then 0 else new_task.trap_cx.x i } }
  ((new_pid : Int), new_task, add_task ready new_task)

/-! ### Helper lemmas about the registry primitives -/

theorem setStatus_map (l : List CoroutineControlBlock) (cid : Nat)
    (st : CoroutineStatus) :
    (setStatus l cid st).map (fun c => c.cid) = l.map (fun c => c.cid) := by
  induction l with
  | nil => rfl
  | cons c rest ih =>
    by_cases h : c.cid = cid <;> simp [setStatus, h, ih]

theorem findCCB_nil (cid : Nat) : findCCB [] cid = none := rfl

theorem findCCB_some {l : List CoroutineControlBlock} {cid : Nat}
    {c : CoroutineControlBlock} (h : findCCB l cid = some c) :
    c ∈ l ∧ c.cid = cid := by
  unfold findCCB at h
  refine ⟨List.mem_of_find?_eq_some h, ?_⟩
  have := List.find?_some h
  simpa using this

theorem findCCB_eq_none {l : List CoroutineControlBlock} {cid : Nat} :
    findCCB l cid = none ↔ ∀ c ∈ l, c.cid ≠ cid := by
  unfold findCCB
  rw [List.find?_eq_none]
  constructor
  · intro h c hc
    have := h c hc
    simpa using this
  · intro h c hc
    simpa using h c hc

theorem findCCB_setStatus_self (l : List CoroutineControlBlock) (cid : Nat)
    (st : CoroutineStatus) :
    findCCB (setStatus l cid st) cid =
      (findCCB l cid).map
        (fun c => { c with inner := { c.inner with status := st } }) := by
  induction l with
  | nil => rfl
  | cons c rest ih =>
    by_cases h : c.cid = cid
    · simp only [setStatus, if_pos h]
      unfold findCCB
      rw [List.find?_cons_of_pos _ (by simpa using h),
        List.find?_cons_of_pos _ (by simpa using h)]
      rfl
    · simp only [setStatus, if_neg h]
      unfold findCCB
      rw [List.find?_cons_of_neg _ (by simpa using h),
        List.find?_cons_of_neg _ (by simpa using h)]
      exact ih

theorem findCCB_setStatus_ne (l : List CoroutineControlBlock)
    (cid cid' : Nat) (st : CoroutineStatus) (h : cid' ≠ cid) :
    findCCB (setStatus l cid st) cid' = findCCB l cid' := by
  induction l with
  | nil => rfl
  | cons c rest ih =>
    by_cases hc : c.cid = cid
    · simp only [setStatus, if_pos hc]
      unfold findCCB
      refine (List.find?_cons_of_neg rest ?_).trans
        (List.find?_cons_of_neg rest ?_).symm
      · show ¬ ((c.cid == cid') = true)
        simp only [beq_iff_eq, hc]
        exact Ne.symm h
      · show ¬ ((c.cid == cid') = true)
        simp only [beq_iff_eq, hc]
        exact Ne.symm h
    · simp only [setStatus, if_neg hc]
      by_cases hc' : c.cid = cid'
      · unfold findCCB
        refine (List.find?_cons_of_pos _ ?_).trans
          (List.find?_cons_of_pos _ ?_).symm
        · show ((c.cid == cid') = true)
          simpa using hc'
        · show ((c.cid == cid') = true)
          simpa using hc'
      · unfold findCCB
        refine (List.find?_cons_of_neg _ ?_).trans
          (Eq.trans ?_ (List.find?_cons_of_neg _ ?_).symm)
        · show ¬ ((c.cid == cid') = true)
          simpa using hc'
        · exact ih
        · show ¬ ((c.cid == cid') = true)
          simpa using hc'

theorem findCCB_append (l₁ l₂ : List CoroutineControlBlock) (cid : Nat) :
    findCCB (l₁ ++ l₂) cid = (findCCB l₁ cid).or (findCCB l₂ cid) := by
  unfold findCCB
  exact List.find?_append

theorem mem_setStatus_cases {l : List CoroutineControlBlock} {cid : Nat}
    {st : CoroutineStatus} {c' : CoroutineControlBlock}
    (hnd : (l.map (fun c => c.cid)).Nodup) (h : c' ∈ setStatus l cid st) :
    (c' ∈ l ∧ c'.cid ≠ cid) ∨ (c'.cid = cid ∧ c'.inner.status = st) := by
  induction l with
  | nil => simp [setStatus] at h
  | cons c rest ih =>
    simp only [List.map_cons, List.nodup_cons] at hnd
    by_cases hc : c.cid = cid
    · simp only [setStatus, if_pos hc, List.mem_cons] at h
      rcases h with h | h
      · right
        subst h
        exact ⟨hc, rfl⟩
      · left
        refine ⟨List.mem_cons_of_mem _ h, ?_⟩
        intro hcontra
        exact hnd.1 (by rw [hc, ← hcontra]; exact List.mem_map_of_mem _ h)
    · simp only [setStatus, hc, if_false, List.mem_cons] at h
      rcases h with h | h
      · left
        exact ⟨by rw [h]; exact List.mem_cons_self c rest, by rw [h]; exact hc⟩
      · rcases ih hnd.2 h with ⟨h1, h2⟩ | h'
        · exact Or.inl ⟨List.mem_cons_of_mem _ h1, h2⟩
        · exact Or.inr h'

theorem removeFirst_eq_erase (l : List Nat) (cid : Nat) :
    removeFirst l cid = l.erase cid := by
  induction l with
  | nil => rfl
  | cons x rest ih =>
    by_cases h : x = cid
    · simp [removeFirst, h, List.erase_cons_head]
    · simp [removeFirst, h, List.erase_cons_tail, ih]

/-! ### Case characterisations of the manager operations -/

theorem prepare_next_empty {m : CoroutineManager} (h : m.ready_queue = []) :
    m.prepare_next_coroutine = (none, m) := by
  simp [CoroutineManager.prepare_next_coroutine, h]

theorem prepare_next_nocur {m : CoroutineManager} {next : Nat} {rest : List Nat}
    (hc : m.current_coroutine = none) (hq : m.ready_queue = next :: rest) :
    m.prepare_next_coroutine =
      (none,
        { m with
          coroutines := setStatus m.coroutines next CoroutineStatus.Running
          ready_queue := rest
          current_coroutine := some next }) := by
  simp [CoroutineManager.prepare_next_coroutine, hc, hq]

theorem prepare_next_unreg {m : CoroutineManager} {cur next : Nat}
    {rest : List Nat} (hc : m.current_coroutine = some cur)
    (hf : findCCB m.coroutines cur = none) (hq : m.ready_queue = next :: rest) :
    m.prepare_next_coroutine =
      (none,
        { m with
          coroutines := setStatus m.coroutines next CoroutineStatus.Running
          ready_queue := rest
          current_coroutine := some next }) := by
  simp [CoroutineManager.prepare_next_coroutine, hc, hf, hq]

theorem prepare_next_running {m : CoroutineManager} {cur next : Nat}
    {rest : List Nat} {c : CoroutineControlBlock}
    (hc : m.current_coroutine = some cur)
    (hf : findCCB m.coroutines cur = some c)
    (hst : c.inner.status = CoroutineStatus.Running)
    (hq : m.ready_queue = next :: rest) :
    m.prepare_next_coroutine =
      (some (cur, next),
        { m with
          coroutines :=
            setStatus (setStatus m.coroutines cur CoroutineStatus.Ready)
              next CoroutineStatus.Running
          ready_queue := rest ++ [cur]
          current_coroutine := some next }) := by
  simp [CoroutineManager.prepare_next_coroutine, hc, hf, hst, hq]

theorem prepare_next_notrunning {m : CoroutineManager} {cur next : Nat}
    {rest : List Nat} {c : CoroutineControlBlock}
    (hc : m.current_coroutine = some cur)
    (hf : findCCB m.coroutines cur = some c)
    (hst : c.inner.status ≠ CoroutineStatus.Running)
    (hq : m.ready_queue = next :: rest) :
    m.prepare_next_coroutine =
      (some (cur, next),
        { m with
          coroutines := setStatus m.coroutines next CoroutineStatus.Running
          ready_queue := rest
          current_coroutine := some next }) := by
  simp [CoroutineManager.prepare_next_coroutine, hc, hf, hst, hq]

theorem block_none {m : CoroutineManager} (hc : m.current_coroutine = none) :
    m.block_current_coroutine = m := by
  simp [CoroutineManager.block_current_coroutine, hc]

theorem block_unreg {m : CoroutineManager} {cur : Nat}
    (hc : m.current_coroutine = some cur)
    (hf : findCCB m.coroutines cur = none) :
    m.block_current_coroutine = m := by
  simp [CoroutineManager.block_current_coroutine, hc, hf]

theorem block_some {m : CoroutineManager} {cur : Nat}
    {c : CoroutineControlBlock} (hc : m.current_coroutine = some cur)
    (hf : findCCB m.coroutines cur = some c) :
    m.block_current_coroutine =
      { m with
        coroutines := setStatus m.coroutines cur CoroutineStatus.Blocked
        blocked_queue := m.blocked_queue ++ [cur]
        current_coroutine := none } := by
  simp [CoroutineManager.block_current_coroutine, hc, hf]

theorem unblock_mem {m : CoroutineManager} {cid : Nat}
    (h : cid ∈ m.blocked_queue) :
    m.unblock_coroutine cid =
      (true,
        { m with
          coroutines := setStatus m.coroutines cid CoroutineStatus.Ready
          blocked_queue := m.blocked_queue.erase cid
          ready_queue := m.ready_queue ++ [cid] }) := by
  simp [CoroutineManager.unblock_coroutine, h, removeFirst_eq_erase]

theorem unblock_not_mem {m : CoroutineManager} {cid : Nat}
    (h : cid ∉ m.blocked_queue) :
    m.unblock_coroutine cid = (false, m) := by
  simp [CoroutineManager.unblock_coroutine, h]

theorem try_resume_cur {m : CoroutineManager} {cid : Nat}
    (h : m.current_coroutine = some cid) :
    m.try_resume_coroutine cid = (false, m) := by
  simp [CoroutineManager.try_resume_coroutine, h]

theorem try_resume_blocked {m : CoroutineManager} {cid : Nat}
    (h : m.current_coroutine ≠ some cid) (hb : cid ∈ m.blocked_queue) :
    m.try_resume_coroutine cid =
      (true,
        { m with
          coroutines := setStatus m.coroutines cid CoroutineStatus.Ready
          blocked_queue := m.blocked_queue.erase cid
          ready_queue := m.ready_queue ++ [cid] }) := by
  unfold CoroutineManager.try_resume_coroutine
  cases hcc : m.current_coroutine with
  | none => simp [hcc, unblock_mem hb]
  | some cc =>
    have : cc ≠ cid := by
      intro hcontra
      exact h (by rw [hcc, hcontra])
    simp [hcc, this, unblock_mem hb]

theorem try_resume_ready {m : CoroutineManager} {cid : Nat}
    (h : m.current_coroutine ≠ some cid) (hb : cid ∉ m.blocked_queue)
    (hr : cid ∈ m.ready_queue) :
    m.try_resume_coroutine cid = (true, m) := by
  unfold CoroutineManager.try_resume_coroutine
  cases hcc : m.current_coroutine with
  | none => simp [hcc, unblock_not_mem hb, hr]
  | some cc =>
    have : cc ≠ cid := by
      intro hcontra
      exact h (by rw [hcc, hcontra])
    simp [hcc, this, unblock_not_mem hb, hr]

theorem try_resume_fail {m : CoroutineManager} {cid : Nat}
    (h : m.current_coroutine ≠ some cid) (hb : cid ∉ m.blocked_queue)
    (hr : cid ∉ m.ready_queue) :
    m.try_resume_coroutine cid = (false, m) := by
  unfold CoroutineManager.try_resume_coroutine
  cases hcc : m.current_coroutine with
  | none => simp [hcc, unblock_not_mem hb, hr]
  | some cc =>
    have : cc ≠ cid := by
      intro hcontra
      exact h (by rw [hcc, hcontra])
    simp [hcc, this, unblock_not_mem hb, hr]

/-! ### The scheduler well-formedness invariant -/

/-- Well-formedness of a manager state, preserved by every operation
reachable from `CoroutineManager.new`: registered `cid`s are bounded by
the counter and duplicate-free, the queues are duplicate-free and
mutually disjoint, the current coroutine is in neither queue, queue
membership determines the recorded status, and every Running block is
the recorded current one. -/
structure Inv (m : CoroutineManager) : Prop where
  cid_bound : ∀ c ∈ m.coroutines, c.cid ≤ m.next_cid
  reg_nodup : (m.coroutines.map (fun c => c.cid)).Nodup
  ready_nodup : m.ready_queue.Nodup
  blocked_nodup : m.blocked_queue.Nodup
  ready_blocked : ∀ cid ∈ m.ready_queue, cid ∉ m.blocked_queue
  cur_ready : ∀ cid, m.current_coroutine = some cid → cid ∉ m.ready_queue
  cur_blocked : ∀ cid, m.current_coroutine = some cid → cid ∉ m.blocked_queue
  ready_status : ∀ cid ∈ m.ready_queue, statusOf m cid = some CoroutineStatus.Ready
  blocked_status : ∀ cid ∈ m.blocked_queue, statusOf m cid = some CoroutineStatus.Blocked
  cur_status : ∀ cid, m.current_coroutine = some cid → statusOf m cid = some CoroutineStatus.Running
  running_cur : ∀ c ∈ m.coroutines, c.inner.status = CoroutineStatus.Running →
    m.current_coroutine = some c.cid

theorem Inv_new : Inv CoroutineManager.new := by
  constructor <;> simp [CoroutineManager.new]

theorem statusOf_mem_reg {m : CoroutineManager} {cid : Nat}
    {st : CoroutineStatus} (h : statusOf m cid = some st) :
    ∃ c ∈ m.coroutines, c.cid = cid ∧ c.inner.status = st := by
  unfold statusOf at h
  cases hf : findCCB m.coroutines cid with
  | none => rw [hf] at h; simp at h
  | some c =>
    rw [hf] at h
    simp at h
    rcases findCCB_some hf with ⟨hmem, hcid⟩
    exact ⟨c, hmem, hcid, h⟩

theorem Inv_create (m : CoroutineManager) (entry arg stack_size : Nat)
    (hm : Inv m) : Inv (m.create_coroutine entry arg stack_size).2 := by
  have hfresh : ∀ c ∈ m.coroutines, c.cid ≠ m.next_cid + 1 := by
    intro c hc h
    have := hm.cid_bound c hc
    omega
  have hfresh_ready : m.next_cid + 1 ∉ m.ready_queue := by
    intro h
    rcases statusOf_mem_reg (hm.ready_status _ h) with ⟨c, hc, hcid, _⟩
    exact hfresh c hc hcid
  have hfresh_blocked : m.next_cid + 1 ∉ m.blocked_queue := by
    intro h
    rcases statusOf_mem_reg (hm.blocked_status _ h) with ⟨c, hc, hcid, _⟩
    exact hfresh c hc hcid
  have hreg_none : findCCB m.coroutines (m.next_cid + 1) = none :=
    findCCB_eq_none.mpr hfresh
  constructor
  case cid_bound =>
    intro c hc
    simp [CoroutineManager.create_coroutine, CoroutineControlBlock.new] at hc
    rcases hc with hc | hc
    · have := hm.cid_bound c hc
      simp [CoroutineManager.create_coroutine, CoroutineControlBlock.new]
      omega
    · simp [CoroutineManager.create_coroutine, CoroutineControlBlock.new, hc]
  case reg_nodup =>
    simp [CoroutineManager.create_coroutine, CoroutineControlBlock.new,
      List.nodup_append]
    exact ⟨hm.reg_nodup, hfresh⟩
  case ready_nodup =>
    simp [CoroutineManager.create_coroutine, CoroutineControlBlock.new,
      List.nodup_append]
    exact ⟨hm.ready_nodup, hfresh_ready⟩
  case blocked_nodup =>
    simpa [CoroutineManager.create_coroutine] using hm.blocked_nodup
  case ready_blocked =>
    intro cid hc
    simp [CoroutineManager.create_coroutine, CoroutineControlBlock.new] at hc ⊢
    rcases hc with hc | hc
    · exact hm.ready_blocked cid hc
    · rw [hc]; exact hfresh_blocked
  case cur_ready =>
    intro cid hc
    simp [CoroutineManager.create_coroutine, CoroutineControlBlock.new] at hc ⊢
    constructor
    · exact hm.cur_ready cid hc
    · intro h
      rw [h] at hc
      rcases statusOf_mem_reg (hm.cur_status _ hc) with ⟨c, hcm, hcid, _⟩
      exact hfresh c hcm hcid
  case cur_blocked =>
    intro cid hc
    simp [CoroutineManager.create_coroutine, CoroutineControlBlock.new] at hc ⊢
    exact hm.cur_blocked cid hc
  case ready_status =>
    intro cid hc
    simp [CoroutineManager.create_coroutine, CoroutineControlBlock.new] at hc
    rcases hc with hc | hc
    · have h := hm.ready_status cid hc
      unfold statusOf at h ⊢
      cases hf : findCCB m.coroutines cid with
      | none => rw [hf] at h; simp at h
      | some c =>
        rw [hf] at h
        simp [CoroutineManager.create_coroutine, CoroutineControlBlock.new]
        rw [findCCB_append _ [_], hf]
        simpa using h
    · subst hc
      unfold statusOf
      simp [CoroutineManager.create_coroutine, CoroutineControlBlock.new]
      rw [findCCB_append _ [_], hreg_none]
      simp [findCCB]
  case blocked_status =>
    intro cid hc
    simp [CoroutineManager.create_coroutine] at hc
    have h := hm.blocked_status cid hc
    unfold statusOf at h ⊢
    cases hf : findCCB m.coroutines cid with
    | none => rw [hf] at h; simp at h
    | some c =>
      rw [hf] at h
      simp [CoroutineManager.create_coroutine, CoroutineControlBlock.new]
      rw [findCCB_append _ [_], hf]
      simpa using h
  case cur_status =>
    intro cid hc
    simp [CoroutineManager.create_coroutine] at hc
    have h := hm.cur_status cid hc
    unfold statusOf at h ⊢
    cases hf : findCCB m.coroutines cid with
    | none => rw [hf] at h; simp at h
    | some c =>
      rw [hf] at h
      simp [CoroutineManager.create_coroutine, CoroutineControlBlock.new]
      rw [findCCB_append _ [_], hf]
      simpa using h
  case running_cur =>
    intro c hc hst
    simp [CoroutineManager.create_coroutine, CoroutineControlBlock.new] at hc
    rcases hc with hc | hc
    · have := hm.running_cur c hc hst
      simpa [CoroutineManager.create_coroutine] using this
    · rw [hc] at hst
      simp at hst

theorem statusOf_eq_find {m : CoroutineManager} {cid : Nat}
    {st : CoroutineStatus} (h : statusOf m cid = some st) :
    ∃ c, findCCB m.coroutines cid = some c ∧ c.inner.status = st := by
  unfold statusOf at h
  cases hf : findCCB m.coroutines cid with
  | none => rw [hf] at h; simp at h
  | some c =>
    rw [hf] at h
    simp at h
    exact ⟨c, rfl, h⟩

theorem cid_mem_setStatus {l : List CoroutineControlBlock} {cid : Nat}
    {st : CoroutineStatus} {c' : CoroutineControlBlock}
    (h : c' ∈ setStatus l cid st) : ∃ d ∈ l, d.cid = c'.cid := by
  have h2 : c'.cid ∈ (setStatus l cid st).map (fun c => c.cid) :=
    List.mem_map_of_mem _ h
  rw [setStatus_map] at h2
  rcases List.mem_map.mp h2 with ⟨d, hd, hdc⟩
  exact ⟨d, hd, hdc⟩

theorem Inv_prepare (m : CoroutineManager) (hm : Inv m) :
    Inv m.prepare_next_coroutine.2 := by
  cases hq : m.ready_queue with
  | nil =>
    rw [prepare_next_empty hq]
    exact hm
  | cons next rest =>
    have hnext_ready : next ∈ m.ready_queue := by rw [hq]; exact List.mem_cons_self _ _
    have hnr : next ∉ rest := by
      have := hm.ready_nodup
      rw [hq] at this
      exact (List.nodup_cons.mp this).1
    have hrest_nodup : rest.Nodup := by
      have := hm.ready_nodup
      rw [hq] at this
      exact (List.nodup_cons.mp this).2
    rcases statusOf_eq_find (hm.ready_status next hnext_ready) with ⟨cnext, hfnext, hstnext⟩
    have hnext_nb : next ∉ m.blocked_queue := hm.ready_blocked next hnext_ready
    cases hc : m.current_coroutine with
    | none =>
      rw [prepare_next_nocur hc hq]
      constructor
      case cid_bound =>
        intro c' hc'
        simp only at hc'
        rcases cid_mem_setStatus hc' with ⟨d, hd, hdc⟩
        have := hm.cid_bound d hd
        simp only
        omega
      case reg_nodup => simpa [setStatus_map] using hm.reg_nodup
      case ready_nodup => exact hrest_nodup
      case blocked_nodup => exact hm.blocked_nodup
      case ready_blocked =>
        intro cid hcid
        exact hm.ready_blocked cid (by rw [hq]; exact List.mem_cons_of_mem _ hcid)
      case cur_ready =>
        intro cid hcid
        simp only [Option.some.injEq] at hcid
        rw [← hcid]
        exact hnr
      case cur_blocked =>
        intro cid hcid
        simp only [Option.some.injEq] at hcid
        rw [← hcid]
        exact hnext_nb
      case ready_status =>
        intro cid hcid
        have hne : cid ≠ next := by
          intro h
          rw [h] at hcid
          exact hnr hcid
        have := hm.ready_status cid (by rw [hq]; exact List.mem_cons_of_mem _ hcid)
        unfold statusOf at this ⊢
        simpa [findCCB_setStatus_ne _ _ _ _ hne] using this
      case blocked_status =>
        intro cid hcid
        have hne : cid ≠ next := by
          intro h
          rw [h] at hcid
          exact hnext_nb hcid
        have := hm.blocked_status cid hcid
        unfold statusOf at this ⊢
        simpa [findCCB_setStatus_ne _ _ _ _ hne] using this
      case cur_status =>
        intro cid hcid
        simp only [Option.some.injEq] at hcid
        subst hcid
        unfold statusOf
        simp [findCCB_setStatus_self, hfnext]
      case running_cur =>
        intro c' hc' hst'
        simp only at hc'
        rcases mem_setStatus_cases hm.reg_nodup hc' with ⟨hmem, hne⟩ | ⟨hcid, _⟩
        · have := hm.running_cur c' hmem hst'
          rw [hc] at this
          simp at this
        · simp [hcid]
    | some cur =>
      rcases statusOf_eq_find (hm.cur_status cur hc) with ⟨ccur, hfcur, hstcur⟩
      have hcur_nr : cur ∉ m.ready_queue := hm.cur_ready cur hc
      have hcur_nb : cur ∉ m.blocked_queue := hm.cur_blocked cur hc
      have hcur_ne_next : cur ≠ next := by
        intro h
        rw [h] at hcur_nr
        exact hcur_nr hnext_ready
      have hcur_nrest : cur ∉ rest := by
        intro h
        exact hcur_nr (by rw [hq]; exact List.mem_cons_of_mem _ h)
      rw [prepare_next_running hc hfcur hstcur hq]
      constructor
      case cid_bound =>
        intro c' hc'
        simp only at hc'
        rcases cid_mem_setStatus hc' with ⟨d, hd, hdc⟩
        rcases cid_mem_setStatus hd with ⟨e, he, hec⟩
        have := hm.cid_bound e he
        simp only
        omega
      case reg_nodup => simpa [setStatus_map] using hm.reg_nodup
      case ready_nodup =>
        rw [List.nodup_append]
        exact ⟨hrest_nodup, List.nodup_singleton _, by
          intro x hx
          simp only [List.mem_singleton]
          intro h
          rw [h] at hx
          exact hcur_nrest hx⟩
      case blocked_nodup => exact hm.blocked_nodup
      case ready_blocked =>
        intro cid hcid
        simp only [List.mem_append, List.mem_singleton] at hcid
        rcases hcid with hcid | hcid
        · exact hm.ready_blocked cid (by rw [hq]; exact List.mem_cons_of_mem _ hcid)
        · rw [hcid]; exact hcur_nb
      case cur_ready =>
        intro cid hcid
        simp only [Option.some.injEq] at hcid
        rw [← hcid]
        simp only [List.mem_append, List.mem_singleton]
        push_neg
        exact ⟨hnr, Ne.symm hcur_ne_next⟩
      case cur_blocked =>
        intro cid hcid
        simp only [Option.some.injEq] at hcid
        rw [← hcid]
        exact hnext_nb
      case ready_status =>
        intro cid hcid
        simp only [List.mem_append, List.mem_singleton] at hcid
        unfold statusOf
        rcases hcid with hcid | hcid
        · have hne : cid ≠ next := by
            intro h
            rw [h] at hcid
            exact hnr hcid
          have hnc : cid ≠ cur := by
            intro h
            rw [h] at hcid
            exact hcur_nrest hcid
          have := hm.ready_status cid (by rw [hq]; exact List.mem_cons_of_mem _ hcid)
          unfold statusOf at this
          simpa [findCCB_setStatus_ne _ _ _ _ hne,
            findCCB_setStatus_ne _ _ _ _ hnc] using this
        · subst hcid
          simp [findCCB_setStatus_ne _ _ _ _ hcur_ne_next,
            findCCB_setStatus_self, hfcur]
      case blocked_status =>
        intro cid hcid
        have hne : cid ≠ next := by
          intro h
          rw [h] at hcid
          exact hnext_nb hcid
        have hnc : cid ≠ cur := by
          intro h
          rw [h] at hcid
          exact hcur_nb hcid
        have := hm.blocked_status cid hcid
        unfold statusOf at this ⊢
        simpa [findCCB_setStatus_ne _ _ _ _ hne,
          findCCB_setStatus_ne _ _ _ _ hnc] using this
      case cur_status =>
        intro cid hcid
        simp only [Option.some.injEq] at hcid
        subst hcid
        unfold statusOf
        have hnc : next ≠ cur := fun h => hcur_ne_next h.symm
        simp [findCCB_setStatus_self,
          findCCB_setStatus_ne _ _ _ _ hnc, hfnext]
      case running_cur =>
        intro c' hc' hst'
        simp only at hc'
        have hnd1 : ((setStatus m.coroutines cur CoroutineStatus.Ready).map
            (fun c => c.cid)).Nodup := by
          simpa [setStatus_map] using hm.reg_nodup
        rcases mem_setStatus_cases hnd1 hc' with ⟨hmem, hne⟩ | ⟨hcid, _⟩
        · rcases mem_setStatus_cases hm.reg_nodup hmem with ⟨hmem2, hne2⟩ | ⟨hcid2, hst2⟩
          · have := hm.running_cur c' hmem2 hst'
            rw [hc] at this
            simp at this
            exact absurd this.symm hne2
          · rw [hst2] at hst'
            simp at hst'
        · simp [hcid]

theorem Inv_block (m : CoroutineManager) (hm : Inv m) :
    Inv m.block_current_coroutine := by
  cases hc : m.current_coroutine with
  | none =>
    rw [block_none hc]
    exact hm
  | some cur =>
    rcases statusOf_eq_find (hm.cur_status cur hc) with ⟨ccur, hfcur, hstcur⟩
    have hcur_nr : cur ∉ m.ready_queue := hm.cur_ready cur hc
    have hcur_nb : cur ∉ m.blocked_queue := hm.cur_blocked cur hc
    rw [block_some hc hfcur]
    constructor
    case cid_bound =>
      intro c' hc'
      simp only at hc'
      rcases cid_mem_setStatus hc' with ⟨d, hd, hdc⟩
      have := hm.cid_bound d hd
      simp only
      omega
    case reg_nodup => simpa [setStatus_map] using hm.reg_nodup
    case ready_nodup => exact hm.ready_nodup
    case blocked_nodup =>
      rw [List.nodup_append]
      exact ⟨hm.blocked_nodup, List.nodup_singleton _, by
        intro x hx
        simp only [List.mem_singleton]
        intro h
        rw [h] at hx
        exact hcur_nb hx⟩
    case ready_blocked =>
      intro cid hcid
      simp only [List.mem_append, List.mem_singleton]
      push_neg
      refine ⟨hm.ready_blocked cid hcid, ?_⟩
      intro h
      rw [h] at hcid
      exact hcur_nr hcid
    case cur_ready => intro cid hcid; simp at hcid
    case cur_blocked => intro cid hcid; simp at hcid
    case ready_status =>
      intro cid hcid
      have hne : cid ≠ cur := by
        intro h
        rw [h] at hcid
        exact hcur_nr hcid
      have := hm.ready_status cid hcid
      unfold statusOf at this ⊢
      simpa [findCCB_setStatus_ne _ _ _ _ hne] using this
    case blocked_status =>
      intro cid hcid
      simp only [List.mem_append, List.mem_singleton] at hcid
      unfold statusOf
      rcases hcid with hcid | hcid
      · have hne : cid ≠ cur := by
          intro h
          rw [h] at hcid
          exact hcur_nb hcid
        have := hm.blocked_status cid hcid
        unfold statusOf at this
        simpa [findCCB_setStatus_ne _ _ _ _ hne] using this
      · subst hcid
        simp [findCCB_setStatus_self, hfcur]
    case cur_status => intro cid hcid; simp at hcid
    case running_cur =>
      intro c' hc' hst'
      simp only at hc'
      rcases mem_setStatus_cases hm.reg_nodup hc' with ⟨hmem, hne⟩ | ⟨hcid, hst2⟩
      · have := hm.running_cur c' hmem hst'
        rw [hc] at this
        simp at this
        exact absurd this.symm hne
      · rw [hst2] at hst'
        simp at hst'

theorem Inv_unblock (m : CoroutineManager) (cid : Nat) (hm : Inv m) :
    Inv (m.unblock_coroutine cid).2 := by
  by_cases hb : cid ∈ m.blocked_queue
  · rcases statusOf_eq_find (hm.blocked_status cid hb) with ⟨cb, hfb, hstb⟩
    have hcid_nr : cid ∉ m.ready_queue := by
      intro h
      exact hm.ready_blocked cid h hb
    rw [unblock_mem hb]
    constructor
    ·
      intro c' hc'
      simp only at hc'
      rcases cid_mem_setStatus hc' with ⟨d, hd, hdc⟩
      have := hm.cid_bound d hd
      simp only
      omega
    · simpa [setStatus_map] using hm.reg_nodup
    ·
      rw [List.nodup_append]
      exact ⟨hm.ready_nodup, List.nodup_singleton _, by
        intro x hx
        simp only [List.mem_singleton]
        intro h
        rw [h] at hx
        exact hcid_nr hx⟩
    · exact hm.blocked_nodup.erase cid
    ·
      intro x hx
      simp only [List.mem_append, List.mem_singleton] at hx
      rcases hx with hx | hx
      · intro h
        exact hm.ready_blocked x hx (List.mem_of_mem_erase h)
      · rw [hx]
        exact hm.blocked_nodup.not_mem_erase
    ·
      intro cc hcc
      have h1 : cc ∉ m.ready_queue := hm.cur_ready cc hcc
      have h2 : cc ∉ m.blocked_queue := hm.cur_blocked cc hcc
      simp only [List.mem_append, List.mem_singleton]
      push_neg
      refine ⟨h1, ?_⟩
      intro h
      rw [h] at h2
      exact h2 hb
    ·
      intro cc hcc
      intro h
      exact hm.cur_blocked cc hcc (List.mem_of_mem_erase h)
    ·
      intro x hx
      simp only [List.mem_append, List.mem_singleton] at hx
      unfold statusOf
      rcases hx with hx | hx
      · have hne : x ≠ cid := by
          intro h
          rw [h] at hx
          exact hcid_nr hx
        have := hm.ready_status x hx
        unfold statusOf at this
        simpa [findCCB_setStatus_ne _ _ _ _ hne] using this
      · subst hx
        simp [findCCB_setStatus_self, hfb]
    ·
      intro x hx
      have hxb : x ∈ m.blocked_queue := List.mem_of_mem_erase hx
      have hne : x ≠ cid := by
        intro h
        rw [h] at hx
        exact hm.blocked_nodup.not_mem_erase hx
      have := hm.blocked_status x hxb
      unfold statusOf at this ⊢
      simpa [findCCB_setStatus_ne _ _ _ _ hne] using this
    ·
      intro cc hcc
      have h2 : cc ∉ m.blocked_queue := hm.cur_blocked cc hcc
      have hne : cc ≠ cid := by
        intro h
        rw [h] at h2
        exact h2 hb
      have := hm.cur_status cc hcc
      unfold statusOf at this ⊢
      simpa [findCCB_setStatus_ne _ _ _ _ hne] using this
    ·
      intro c' hc' hst'
      simp only at hc'
      rcases mem_setStatus_cases hm.reg_nodup hc' with ⟨hmem, _⟩ | ⟨_, hst2⟩
      · exact hm.running_cur c' hmem hst'
      · rw [hst2] at hst'
        simp at hst'
  · rw [unblock_not_mem hb]
    exact hm

theorem Inv_try_resume (m : CoroutineManager) (cid : Nat) (hm : Inv m) :
    Inv (m.try_resume_coroutine cid).2 := by
  by_cases hc : m.current_coroutine = some cid
  · rw [try_resume_cur hc]
    exact hm
  · by_cases hb : cid ∈ m.blocked_queue
    · rw [try_resume_blocked hc hb]
      have := Inv_unblock m cid hm
      rwa [unblock_mem hb] at this
    · by_cases hr : cid ∈ m.ready_queue
      · rw [try_resume_ready hc hb hr]
        exact hm
      · rw [try_resume_fail hc hb hr]
        exact hm

theorem Inv_yield (m : CoroutineManager) (hm : Inv m) :
    Inv (coroutine_yield m).2 := by
  unfold coroutine_yield
  exact Inv_prepare m hm

theorem Inv_applyOp (m : CoroutineManager) (op : Op) (hm : Inv m) :
    Inv (applyOp m op) := by
  cases op with
  | create entry arg stack_size =>
    unfold applyOp sys_coroutine_create coroutine_create
    exact Inv_create m entry arg stack_size hm
  | yieldOp =>
    unfold applyOp sys_coroutine_yield
    exact Inv_yield m hm
  | blockOp =>
    unfold applyOp coroutine_block
    exact Inv_block m hm
  | resumeOp cid =>
    unfold applyOp sys_coroutine_resume coroutine_resume
    have h1 := Inv_try_resume m cid hm
    cases hok : (m.try_resume_coroutine cid).1
    · simp [hok]
      exact h1
    · simp [hok]
      have := Inv_yield (m.try_resume_coroutine cid).2 h1
      simpa using this
  | exitOp exit_code =>
    unfold applyOp sys_coroutine_exit
    have h1 := Inv_block m hm
    have := Inv_yield (coroutine_block m) (by unfold coroutine_block; exact h1)
    simpa using this

theorem Inv_runOps (ops : List Op) : Inv (runOps ops) := by
  unfold runOps
  induction ops using List.reverseRecOn with
  | nil => exact Inv_new
  | append_singleton ops op ih =>
    rw [List.foldl_append]
    exact Inv_applyOp _ op ih

/-! ### Claim C9: at most one Running coroutine -/

theorem running_filter_le_one (m : CoroutineManager) (hm : Inv m) :
    (m.coroutines.filter
      (fun c => c.inner.status == CoroutineStatus.Running)).length ≤ 1 := by
  cases hfl : m.coroutines.filter
      (fun c => c.inner.status == CoroutineStatus.Running) with
  | nil => simp
  | cons a t1 =>
    cases t1 with
    | nil => simp
    | cons b t2 =>
      exfalso
      have hsub : (a :: b :: t2).Sublist m.coroutines := by
        rw [← hfl]
        exact List.filter_sublist _
      have hmap := hsub.map (fun c => c.cid)
      have hnd := hmap.nodup hm.reg_nodup
      simp only [List.map_cons, List.nodup_cons, List.mem_cons] at hnd
      have hab : a.cid ≠ b.cid := fun h => hnd.1 (Or.inl h)
      have ha : a ∈ m.coroutines ∧ a.inner.status = CoroutineStatus.Running := by
        have : a ∈ m.coroutines.filter
            (fun c => c.inner.status == CoroutineStatus.Running) := by
          rw [hfl]; exact List.mem_cons_self _ _
        have h2 := List.mem_filter.mp this
        exact ⟨h2.1, by simpa using h2.2⟩
      have hb : b ∈ m.coroutines ∧ b.inner.status = CoroutineStatus.Running := by
        have : b ∈ m.coroutines.filter
            (fun c => c.inner.status == CoroutineStatus.Running) := by
          rw [hfl]; exact List.mem_cons_of_mem _ (List.mem_cons_self _ _)
        have h2 := List.mem_filter.mp this
        exact ⟨h2.1, by simpa using h2.2⟩
      have h1 := hm.running_cur a ha.1 ha.2
      have h2 := hm.running_cur b hb.1 hb.2
      rw [h1] at h2
      exact hab (by simpa using h2)

/-- C9: in every coroutine-manager state reachable from the initial state
by any sequence of create / yield / block / resume / exit operations, at
most one registered coroutine control block has status Running, and
whenever the current-coroutine record holds an identifier, the registered
coroutine with that identifier has status Running. -/
theorem C9_at_most_one_running (ops : List Op) :
    ((runOps ops).coroutines.filter
      (fun c => c.inner.status == CoroutineStatus.Running)).length ≤ 1 ∧
    ∀ cid, (runOps ops).current_coroutine = some cid →
      statusOf (runOps ops) cid = some CoroutineStatus.Running := by
  have hm := Inv_runOps ops
  exact ⟨running_filter_le_one _ hm, fun cid h => hm.cur_status cid h⟩

theorem C9_at_most_one_running_witness :
    (((runOps [Op.create 5 0 16, Op.yieldOp]).coroutines.filter
      (fun c => c.inner.status == CoroutineStatus.Running)).length ≤ 1) ∧
    statusOf (runOps [Op.create 5 0 16, Op.yieldOp]) 1 =
      some CoroutineStatus.Running := by
  have h := C9_at_most_one_running [Op.create 5 0 16, Op.yieldOp]
  exact ⟨h.1, h.2 1 (by decide)⟩

/-! ### Claim C10: coroutine identifiers -/

/-- Whether an operation is a create. -/
def Op.isCreate : Op → Bool
  | Op.create _ _ _ => true
  | _ => false

/-- Number of creation operations in a sequence. -/
def countCreates (ops : List Op) : Nat := (ops.filter Op.isCreate).length

theorem prepare_next_frame (m : CoroutineManager) :
    m.prepare_next_coroutine.2.next_cid = m.next_cid ∧
    m.prepare_next_coroutine.2.next_stack_base = m.next_stack_base := by
  cases hq : m.ready_queue with
  | nil => rw [prepare_next_empty hq]; exact ⟨rfl, rfl⟩
  | cons next rest =>
    cases hc : m.current_coroutine with
    | none => rw [prepare_next_nocur hc hq]; exact ⟨rfl, rfl⟩
    | some cur =>
      cases hf : findCCB m.coroutines cur with
      | none => rw [prepare_next_unreg hc hf hq]; exact ⟨rfl, rfl⟩
      | some c =>
        by_cases hst : c.inner.status = CoroutineStatus.Running
        · rw [prepare_next_running hc hf hst hq]; exact ⟨rfl, rfl⟩
        · rw [prepare_next_notrunning hc hf hst hq]; exact ⟨rfl, rfl⟩

theorem block_frame (m : CoroutineManager) :
    m.block_current_coroutine.next_cid = m.next_cid ∧
    m.block_current_coroutine.next_stack_base = m.next_stack_base := by
  cases hc : m.current_coroutine with
  | none => rw [block_none hc]; exact ⟨rfl, rfl⟩
  | some cur =>
    cases hf : findCCB m.coroutines cur with
    | none => rw [block_unreg hc hf]; exact ⟨rfl, rfl⟩
    | some c => rw [block_some hc hf]; exact ⟨rfl, rfl⟩

theorem try_resume_frame (m : CoroutineManager) (cid : Nat) :
    (m.try_resume_coroutine cid).2.next_cid = m.next_cid ∧
    (m.try_resume_coroutine cid).2.next_stack_base = m.next_stack_base := by
  by_cases hc : m.current_coroutine = some cid
  · rw [try_resume_cur hc]; exact ⟨rfl, rfl⟩
  · by_cases hb : cid ∈ m.blocked_queue
    · rw [try_resume_blocked hc hb]; exact ⟨rfl, rfl⟩
    · by_cases hr : cid ∈ m.ready_queue
      · rw [try_resume_ready hc hb hr]; exact ⟨rfl, rfl⟩
      · rw [try_resume_fail hc hb hr]; exact ⟨rfl, rfl⟩

theorem applyOp_next_cid (m : CoroutineManager) (op : Op) :
    (applyOp m op).next_cid =
      if op.isCreate then m.next_cid + 1 else m.next_cid := by
  cases op with
  | create entry arg stack_size =>
    simp [applyOp, sys_coroutine_create, coroutine_create,
      CoroutineManager.create_coroutine, CoroutineControlBlock.new, Op.isCreate]
  | yieldOp =>
    simp only [applyOp, sys_coroutine_yield, coroutine_yield, Op.isCreate,
      if_false, Bool.false_eq_true]
    exact (prepare_next_frame m).1
  | blockOp =>
    simp only [applyOp, coroutine_block, Op.isCreate, if_false,
      Bool.false_eq_true]
    exact (block_frame m).1
  | resumeOp cid =>
    simp only [applyOp, sys_coroutine_resume, coroutine_resume, Op.isCreate,
      if_false, Bool.false_eq_true]
    cases hok : (m.try_resume_coroutine cid).1
    · simpa [hok] using (try_resume_frame m cid).1
    · simp only [hok, if_true]
      have h1 := (prepare_next_frame (m.try_resume_coroutine cid).2).1
      have h2 := (try_resume_frame m cid).1
      simpa [coroutine_yield, h2] using h1
  | exitOp exit_code =>
    simp only [applyOp, sys_coroutine_exit, Op.isCreate, if_false,
      Bool.false_eq_true]
    have h1 := (prepare_next_frame (coroutine_block m)).1
    have h2 := (block_frame m).1
    simpa [coroutine_yield, coroutine_block, h2] using h1

theorem runOps_next_cid (ops : List Op) :
    (runOps ops).next_cid = countCreates ops := by
  unfold runOps countCreates
  induction ops using List.reverseRecOn with
  | nil => rfl
  | append_singleton ops op ih =>
    rw [List.foldl_append, List.filter_append, List.length_append]
    simp only [List.foldl_cons, List.foldl_nil]
    rw [applyOp_next_cid, ih]
    cases hop : op.isCreate <;> simp [hop, List.filter, countCreates]

/-- C10: `coroutine_create` has no failure path: for every entry address,
argument and stack size (including zero) it returns the next identifier
drawn from the single shared counter; identifiers start at 1
(`countCreates ops + 1` after `ops`), are positive, and every later
creation returns a strictly greater identifier, so identifiers are never
reused. -/
theorem C10_create_ids (ops : List Op) (entry arg stack_size : Nat) :
    (sys_coroutine_create (runOps ops) entry arg stack_size).1 =
      (countCreates ops : Int) + 1 ∧
    0 < (sys_coroutine_create (runOps ops) entry arg stack_size).1 ∧
    ∀ (ops₂ : List Op) (e₂ a₂ s₂ e₃ a₃ s₃ : Nat),
      (sys_coroutine_create (runOps (ops ++ Op.create e₂ a₂ s₂ :: ops₂))
          e₃ a₃ s₃).1 >
        (sys_coroutine_create (runOps ops) entry arg stack_size).1 := by
  have hval : ∀ (ops' : List Op) (e a s : Nat),
      (sys_coroutine_create (runOps ops') e a s).1 =
        (countCreates ops' : Int) + 1 := by
    intro ops' e a s
    simp [sys_coroutine_create, coroutine_create,
      CoroutineManager.create_coroutine, CoroutineControlBlock.new,
      runOps_next_cid ops']
  refine ⟨hval ops entry arg stack_size, ?_, ?_⟩
  · rw [hval]
    positivity
  · intro ops₂ e₂ a₂ s₂ e₃ a₃ s₃
    rw [hval, hval]
    have : countCreates (ops ++ Op.create e₂ a₂ s₂ :: ops₂) =
        countCreates ops + 1 + countCreates ops₂ := by
      simp [countCreates, List.filter_append, Op.isCreate, List.filter]
      omega
    rw [this]
    push_cast
    omega

/-! ### Claim C2: when coroutine_yield succeeds -/

/-- The state after creating a single coroutine from a fresh manager:
the Ready FIFO is non-empty and there is no current coroutine. -/
def c2state : CoroutineManager :=
  (sys_coroutine_create CoroutineManager.new 100 0 4096).2

/-- C2 counterexample: with a non-empty Ready FIFO but no current
coroutine, `coroutine_yield` returns −1 even though a coroutine is
runnable, and it mutates the manager on this failure path — refuting both
"returns −1 exactly when the Ready FIFO is empty" and "on the failure
path the manager's state is left unchanged". -/
theorem C2_counterexample :
    c2state.ready_queue ≠ [] ∧
    (sys_coroutine_yield c2state).1 = -1 ∧
    (sys_coroutine_yield c2state).2 ≠ c2state := by decide

/-- C2 (amended): `coroutine_yield` returns 0 exactly when the Ready FIFO
is non-empty and a (registered) current coroutine is recorded; when the
Ready FIFO is empty it returns −1 and leaves the state unchanged; when
the Ready FIFO is non-empty but no current coroutine is recorded it also
returns −1, yet still pops the FIFO front, records it as current (and
marks it Running). -/
theorem C2_yield_amended (m : CoroutineManager) :
    ((sys_coroutine_yield m).1 = 0 ↔
      (m.ready_queue ≠ [] ∧ ∃ cur, m.current_coroutine = some cur ∧
        (findCCB m.coroutines cur).isSome = true)) ∧
    (m.ready_queue = [] → sys_coroutine_yield m = (-1, m)) ∧
    (∀ next rest, m.current_coroutine = none → m.ready_queue = next :: rest →
      (sys_coroutine_yield m).1 = -1 ∧
      (sys_coroutine_yield m).2.current_coroutine = some next ∧
      (sys_coroutine_yield m).2.ready_queue = rest ∧
      statusOf (sys_coroutine_yield m).2 next =
        (statusOf m next).map (fun _ => CoroutineStatus.Running) ∧
      ((findCCB m.coroutines next).isSome = true →
        statusOf (sys_coroutine_yield m).2 next =
          some CoroutineStatus.Running)) := by
  refine ⟨?_, ?_, ?_⟩
  · cases hq : m.ready_queue with
    | nil =>
      unfold sys_coroutine_yield coroutine_yield
      rw [prepare_next_empty hq]
      simp
    | cons next rest =>
      cases hc : m.current_coroutine with
      | none =>
        unfold sys_coroutine_yield coroutine_yield
        rw [prepare_next_nocur hc hq]
        simp [hc]
      | some cur =>
        cases hf : findCCB m.coroutines cur with
        | none =>
          unfold sys_coroutine_yield coroutine_yield
          rw [prepare_next_unreg hc hf hq]
          simp [hc, hf]
        | some c =>
          by_cases hst : c.inner.status = CoroutineStatus.Running
          · unfold sys_coroutine_yield coroutine_yield
            rw [prepare_next_running hc hf hst hq]
            simp [hc, hf]
          · unfold sys_coroutine_yield coroutine_yield
            rw [prepare_next_notrunning hc hf hst hq]
            simp [hc, hf]
  · intro hq
    unfold sys_coroutine_yield coroutine_yield
    rw [prepare_next_empty hq]
    rfl
  · intro next rest hc hq
    unfold sys_coroutine_yield coroutine_yield
    rw [prepare_next_nocur hc hq]
    refine ⟨rfl, rfl, rfl, ?_, ?_⟩
    · show (findCCB (setStatus m.coroutines next CoroutineStatus.Running)
          next).map (fun c => c.inner.status) =
        (statusOf m next).map (fun _ => CoroutineStatus.Running)
      rw [findCCB_setStatus_self]
      unfold statusOf
      cases findCCB m.coroutines next <;> rfl
    · intro hsome
      obtain ⟨c, hcf⟩ := Option.isSome_iff_exists.mp hsome
      show (findCCB (setStatus m.coroutines next CoroutineStatus.Running)
          next).map (fun c => c.inner.status) = some CoroutineStatus.Running
      rw [findCCB_setStatus_self, hcf]
      rfl

theorem C2_yield_amended_witness :
    (sys_coroutine_yield c2state).1 = -1 ∧
    (sys_coroutine_yield c2state).2.current_coroutine = some 1 ∧
    (sys_coroutine_yield c2state).2.ready_queue = [] ∧
    statusOf (sys_coroutine_yield c2state).2 1 =
      some CoroutineStatus.Running := by
  have h := (C2_yield_amended c2state).2.2 1 [] (by decide) (by decide)
  exact ⟨h.1, h.2.1, h.2.2.1, h.2.2.2.2 (by decide)⟩

/-! ### Claim C3: when coroutine_resume succeeds -/

theorem yield_succ_iff (m : CoroutineManager) :
    (coroutine_yield m).1 = true ↔
      (m.ready_queue ≠ [] ∧ ∃ cur, m.current_coroutine = some cur ∧
        (findCCB m.coroutines cur).isSome = true) := by
  cases hq : m.ready_queue with
  | nil =>
    unfold coroutine_yield
    rw [prepare_next_empty hq]
    simp
  | cons next rest =>
    cases hc : m.current_coroutine with
    | none =>
      unfold coroutine_yield
      rw [prepare_next_nocur hc hq]
      simp [hc]
    | some cur =>
      cases hf : findCCB m.coroutines cur with
      | none =>
        unfold coroutine_yield
        rw [prepare_next_unreg hc hf hq]
        simp [hc, hf]
      | some c =>
        by_cases hst : c.inner.status = CoroutineStatus.Running
        · unfold coroutine_yield
          rw [prepare_next_running hc hf hst hq]
          simp [hc, hf]
        · unfold coroutine_yield
          rw [prepare_next_notrunning hc hf hst hq]
          simp [hc, hf]

theorem yield_fail_nocur (m : CoroutineManager)
    (hc : m.current_coroutine = none) : (coroutine_yield m).1 = false := by
  cases hq : m.ready_queue with
  | nil =>
    unfold coroutine_yield
    rw [prepare_next_empty hq]
    rfl
  | cons next rest =>
    unfold coroutine_yield
    rw [prepare_next_nocur hc hq]
    rfl

theorem findCCB_setStatus_isSome (l : List CoroutineControlBlock)
    (cid : Nat) (st : CoroutineStatus) (x : Nat) :
    (findCCB (setStatus l cid st) x).isSome = (findCCB l x).isSome := by
  by_cases h : x = cid
  · subst h
    rw [findCCB_setStatus_self]
    cases findCCB l x <;> simp
  · rw [findCCB_setStatus_ne _ _ _ _ h]

theorem try_resume_ok_state {m : CoroutineManager} {cid : Nat}
    (hc : m.current_coroutine ≠ some cid) (hb : cid ∈ m.blocked_queue) :
    (m.try_resume_coroutine cid).2.ready_queue = m.ready_queue ++ [cid] ∧
    (m.try_resume_coroutine cid).2.current_coroutine = m.current_coroutine ∧
    ∀ x, (findCCB (m.try_resume_coroutine cid).2.coroutines x).isSome =
      (findCCB m.coroutines x).isSome := by
  rw [try_resume_blocked hc hb]
  exact ⟨rfl, rfl, fun x => findCCB_setStatus_isSome _ _ _ x⟩

theorem sys_resume_eq (m : CoroutineManager) (cid : Nat) :
    sys_coroutine_resume m cid =
      if (m.try_resume_coroutine cid).1 = true then
        (if (coroutine_yield (m.try_resume_coroutine cid).2).1 = true
          then 0 else -1,
         (coroutine_yield (m.try_resume_coroutine cid).2).2)
      else (-1, (m.try_resume_coroutine cid).2) := by
  unfold sys_coroutine_resume coroutine_resume
  rcases hmr : m.try_resume_coroutine cid with ⟨ok, m1⟩
  cases ok
  · simp
  · rcases hy : coroutine_yield m1 with ⟨ok2, m2⟩
    cases ok2 <;> simp [hy]

/-- The state with coroutine 1 Running and current, coroutine 2 Ready in
the Ready FIFO, and nothing Blocked. -/
def c3state : CoroutineManager :=
  runOps [Op.create 10 1 4096, Op.yieldOp, Op.create 20 2 4096]

/-- C3 counterexample: `coroutine_resume(2)` returns 0 on a coroutine
that is already Ready (and is not found among the Blocked coroutines),
refuting "returns 0 if and only if it found a Blocked coroutine with
that identifier". -/
theorem C3_counterexample :
    statusOf c3state 2 = some CoroutineStatus.Ready ∧
    2 ∉ c3state.blocked_queue ∧
    (sys_coroutine_resume c3state 2).1 = 0 := by decide

/-- C3 (amended): under the assumption that the recorded current
coroutine is registered, `coroutine_resume(cid)` returns 0 iff `cid` is
not the current coroutine, is found among the Blocked coroutines (then
moved to the Ready tail) or is already in the Ready queue, and a current
coroutine is recorded (so the subsequent yield switches); resume on the
current coroutine or on an identifier in neither queue returns −1 and is
a no-op. -/
theorem C3_resume_amended (m : CoroutineManager) (cid : Nat)
    (hreg : ∀ cur, m.current_coroutine = some cur →
      (findCCB m.coroutines cur).isSome = true) :
    ((sys_coroutine_resume m cid).1 = 0 ↔
      (m.current_coroutine ≠ some cid ∧
       (cid ∈ m.blocked_queue ∨ cid ∈ m.ready_queue) ∧
       m.current_coroutine ≠ none)) ∧
    ((m.current_coroutine = some cid ∨
        (cid ∉ m.blocked_queue ∧ cid ∉ m.ready_queue)) →
      sys_coroutine_resume m cid = (-1, m)) := by
  constructor
  · by_cases hc : m.current_coroutine = some cid
    · rw [sys_resume_eq, try_resume_cur hc]
      simp [hc]
    · by_cases hb : cid ∈ m.blocked_queue
      · have hok : (m.try_resume_coroutine cid).1 = true := by
          rw [try_resume_blocked hc hb]
        have hst := try_resume_ok_state hc hb
        rw [sys_resume_eq]
        rw [hok]
        simp only [if_true]
        cases hcc : m.current_coroutine with
        | none =>
          have hfail : (coroutine_yield (m.try_resume_coroutine cid).2).1 = false :=
            yield_fail_nocur _ (by rw [hst.2.1, hcc])
          rw [hfail]
          simp [hcc]
        | some cur =>
          have hsucc : (coroutine_yield (m.try_resume_coroutine cid).2).1 = true := by
            apply (yield_succ_iff _).mpr
            refine ⟨by rw [hst.1]; simp, cur, by rw [hst.2.1, hcc], ?_⟩
            rw [hst.2.2]
            exact hreg cur hcc
          have hnc : cur ≠ cid := fun h => hc (h ▸ hcc)
          rw [hsucc]
          simp [hcc, hb, hnc]
      · by_cases hr : cid ∈ m.ready_queue
        · have hok : (m.try_resume_coroutine cid).1 = true := by
            rw [try_resume_ready hc hb hr]
          have hm1 : (m.try_resume_coroutine cid).2 = m := by
            rw [try_resume_ready hc hb hr]
          rw [sys_resume_eq, hok]
          simp only [if_true]
          rw [hm1]
          cases hcc : m.current_coroutine with
          | none =>
            have hfail : (coroutine_yield m).1 = false :=
              yield_fail_nocur _ hcc
            rw [hfail]
            simp [hcc]
          | some cur =>
            have hsucc : (coroutine_yield m).1 = true := by
              apply (yield_succ_iff _).mpr
              exact ⟨List.ne_nil_of_mem hr, cur, hcc, hreg cur hcc⟩
            have hnc : cur ≠ cid := fun h => hc (h ▸ hcc)
            rw [hsucc]
            simp [hcc, hb, hr, hnc]
        · rw [sys_resume_eq, try_resume_fail hc hb hr]
          simp [hb, hr]
  · intro h
    rcases h with hc | ⟨hb, hr⟩
    · rw [sys_resume_eq, try_resume_cur hc]
      simp
    · by_cases hc : m.current_coroutine = some cid
      · rw [sys_resume_eq, try_resume_cur hc]
        simp
      · rw [sys_resume_eq, try_resume_fail hc hb hr]
        simp

theorem C3_resume_amended_witness :
    sys_coroutine_resume c3state 5 = (-1, c3state) := by
  have hreg : ∀ cur, c3state.current_coroutine = some cur →
      (findCCB c3state.coroutines cur).isSome = true := by
    intro cur hcur
    have h1 : c3state.current_coroutine = some 1 := by decide
    rw [h1] at hcur
    cases hcur
    decide
  exact (C3_resume_amended c3state 5 hreg).2
    (Or.inr ⟨by decide, by decide⟩)

/-! ### Claim C4: what resume does to the state -/

theorem mem_split_first {l : List Nat} {a : Nat} (h : a ∈ l) :
    ∃ pre post, l = pre ++ a :: post ∧ a ∉ pre := by
  induction l with
  | nil => cases h
  | cons x rest ih =>
    by_cases hx : x = a
    · exact ⟨[], rest, by rw [hx]; rfl, by simp⟩
    · have h' : a ∈ rest := by
        rcases List.mem_cons.mp h with h1 | h1
        · exact absurd h1.symm hx
        · exact h1
      rcases ih h' with ⟨pre, post, heq, hnp⟩
      exact ⟨x :: pre, post, by simp [heq], by
        simp only [List.mem_cons]
        push_neg
        exact ⟨Ne.symm hx, hnp⟩⟩

/-- The state with coroutine 1 Running and current, coroutine 2 Blocked,
and an empty Ready FIFO. -/
def c4state : CoroutineManager :=
  runOps [Op.create 10 1 4096, Op.create 20 2 4096, Op.yieldOp, Op.yieldOp,
    Op.blockOp, Op.yieldOp]

/-- C4 counterexample: resuming the Blocked coroutine 2 while coroutine 1
is Running and current transfers control — afterwards coroutine 2 is
current (and Running) and the previously Running coroutine 1 has been
demoted to Ready — refuting "resume does not transfer control" and "the
currently-Running coroutine remains Running and remains current". -/
theorem C4_counterexample :
    c4state.current_coroutine = some 1 ∧
    statusOf c4state 1 = some CoroutineStatus.Running ∧
    2 ∈ c4state.blocked_queue ∧
    statusOf c4state 2 = some CoroutineStatus.Blocked ∧
    (sys_coroutine_resume c4state 2).1 = 0 ∧
    (sys_coroutine_resume c4state 2).2.current_coroutine = some 2 ∧
    statusOf (sys_coroutine_resume c4state 2).2 1 =
      some CoroutineStatus.Ready := by decide

/-- C4 (amended): the unblocking phase of `resume(cid)` changes only that
coroutine — it is moved from the Blocked set (order of the rest
preserved) to the tail of the Ready FIFO with status Ready, every other
status and the current-coroutine record are untouched — but `resume`
then invokes yield, which transfers control: the front of the Ready FIFO
becomes Running and current, and the previously Running coroutine is
demoted to Ready and re-enqueued at the tail.  The `hready` hypothesis
(every Ready-queue entry is registered) holds in every reachable state. -/
theorem C4_resume_moves_and_switches (m : CoroutineManager) (cid cur : Nat)
    (hc : m.current_coroutine = some cur)
    (hrun : statusOf m cur = some CoroutineStatus.Running)
    (hstb : statusOf m cid = some CoroutineStatus.Blocked)
    (hb : cid ∈ m.blocked_queue)
    (hne : cid ≠ cur)
    (hnr : cur ∉ m.ready_queue)
    (hready : ∀ x ∈ m.ready_queue, (findCCB m.coroutines x).isSome = true) :
    (∃ pre post, m.blocked_queue = pre ++ cid :: post ∧ cid ∉ pre ∧
      (m.try_resume_coroutine cid).2.blocked_queue = pre ++ post) ∧
    (m.try_resume_coroutine cid).2.ready_queue = m.ready_queue ++ [cid] ∧
    (m.try_resume_coroutine cid).2.current_coroutine = some cur ∧
    statusOf (m.try_resume_coroutine cid).2 cid = some CoroutineStatus.Ready ∧
    (∀ x, x ≠ cid → statusOf (m.try_resume_coroutine cid).2 x = statusOf m x) ∧
    (sys_coroutine_resume m cid).1 = 0 ∧
    (∃ f rest, m.ready_queue ++ [cid] = f :: rest ∧
      (sys_coroutine_resume m cid).2.current_coroutine = some f ∧
      statusOf (sys_coroutine_resume m cid).2 f =
        some CoroutineStatus.Running ∧
      (sys_coroutine_resume m cid).2.ready_queue = rest ++ [cur] ∧
      statusOf (sys_coroutine_resume m cid).2 cur =
        some CoroutineStatus.Ready) := by
  have hc' : ¬ m.current_coroutine = some cid := by
    intro h
    rw [hc] at h
    exact hne (Option.some.inj h).symm
  rcases statusOf_eq_find hrun with ⟨ccur, hfcur, hscur⟩
  rcases statusOf_eq_find hstb with ⟨cb, hfb, hsb⟩
  have htr := try_resume_blocked hc' hb
  have hcurne : cur ≠ cid := Ne.symm hne
  refine ⟨?_, ?_, ?_, ?_, ?_, ?_, ?_⟩
  · rcases mem_split_first hb with ⟨pre, post, hsplit, hpre⟩
    refine ⟨pre, post, hsplit, hpre, ?_⟩
    rw [htr]
    show m.blocked_queue.erase cid = pre ++ post
    rw [hsplit, List.erase_append_right _ hpre, List.erase_cons_head]
  · rw [htr]
  · rw [htr]
    exact hc
  · rw [htr]
    show ((findCCB (setStatus m.coroutines cid CoroutineStatus.Ready) cid).map
      (fun c => c.inner.status)) = some CoroutineStatus.Ready
    rw [findCCB_setStatus_self, hfb]
    rfl
  · intro x hx
    rw [htr]
    show ((findCCB (setStatus m.coroutines cid CoroutineStatus.Ready) x).map
      (fun c => c.inner.status)) = statusOf m x
    rw [findCCB_setStatus_ne _ _ _ _ hx]
    rfl
  · have hsucc : (coroutine_yield
        { m with
          coroutines := setStatus m.coroutines cid CoroutineStatus.Ready
          blocked_queue := m.blocked_queue.erase cid
          ready_queue := m.ready_queue ++ [cid] }).1 = true := by
      apply (yield_succ_iff _).mpr
      refine ⟨by simp, cur, hc, ?_⟩
      show (findCCB (setStatus m.coroutines cid CoroutineStatus.Ready) cur).isSome = true
      rw [findCCB_setStatus_ne _ _ _ _ hcurne, hfcur]
      rfl
    rw [sys_resume_eq, htr]
    simp [hsucc]
  · have hf1 : findCCB (setStatus m.coroutines cid CoroutineStatus.Ready) cur =
        some ccur := by
      rw [findCCB_setStatus_ne _ _ _ _ hcurne]
      exact hfcur
    have hexp : (sys_coroutine_resume m cid).2 =
        (coroutine_yield
          { m with
            coroutines := setStatus m.coroutines cid CoroutineStatus.Ready
            blocked_queue := m.blocked_queue.erase cid
            ready_queue := m.ready_queue ++ [cid] }).2 := by
      rw [sys_resume_eq, htr]
      by_cases hy : (coroutine_yield
          { m with
            coroutines := setStatus m.coroutines cid CoroutineStatus.Ready
            blocked_queue := m.blocked_queue.erase cid
            ready_queue := m.ready_queue ++ [cid] }).1 = true <;>
        simp [hy]
    cases hq : m.ready_queue with
    | nil =>
      have hq1 : ({ m with
          coroutines := setStatus m.coroutines cid CoroutineStatus.Ready
          blocked_queue := m.blocked_queue.erase cid
          ready_queue := m.ready_queue ++ [cid] } :
            CoroutineManager).ready_queue = cid :: ([] : List Nat) := by
        show m.ready_queue ++ [cid] = _
        rw [hq]
        rfl
      have hyld := prepare_next_running (m :=
          { m with
            coroutines := setStatus m.coroutines cid CoroutineStatus.Ready
            blocked_queue := m.blocked_queue.erase cid
            ready_queue := m.ready_queue ++ [cid] })
        hc hf1 hscur hq1
      have hstate2 : (coroutine_yield
          { m with
            coroutines := setStatus m.coroutines cid CoroutineStatus.Ready
            blocked_queue := m.blocked_queue.erase cid
            ready_queue := m.ready_queue ++ [cid] }).2 =
          ({ m with
            coroutines := setStatus (setStatus
              (setStatus m.coroutines cid CoroutineStatus.Ready) cur
                CoroutineStatus.Ready) cid CoroutineStatus.Running
            blocked_queue := m.blocked_queue.erase cid
            ready_queue := [] ++ [cur]
            current_coroutine := some cid } : CoroutineManager) := by
        unfold coroutine_yield
        rw [hyld]
      have hstat : ((findCCB (setStatus (setStatus
          (setStatus m.coroutines cid CoroutineStatus.Ready) cur
            CoroutineStatus.Ready) cid CoroutineStatus.Running) cur).map
          (fun c => c.inner.status)) = some CoroutineStatus.Ready := by
        rw [findCCB_setStatus_ne _ _ _ _ hcurne, findCCB_setStatus_self,
          findCCB_setStatus_ne _ _ _ _ hcurne, hfcur]
        rfl
      have hstatf : ((findCCB (setStatus (setStatus
          (setStatus m.coroutines cid CoroutineStatus.Ready) cur
            CoroutineStatus.Ready) cid CoroutineStatus.Running) cid).map
          (fun c => c.inner.status)) = some CoroutineStatus.Running := by
        rw [findCCB_setStatus_self, findCCB_setStatus_ne _ _ _ _ hne,
          findCCB_setStatus_self, hfb]
        rfl
      refine ⟨cid, [], rfl, ?_, ?_, ?_, ?_⟩
      · rw [hexp, hstate2]
      · rw [hexp, hstate2]
        exact hstatf
      · rw [hexp, hstate2]
      · rw [hexp, hstate2]
        exact hstat
    | cons r t =>
      have hrne : r ≠ cur := by
        intro h
        rw [h] at hq
        exact hnr (by rw [hq]; exact List.mem_cons_self _ _)
      have hq1 : ({ m with
          coroutines := setStatus m.coroutines cid CoroutineStatus.Ready
          blocked_queue := m.blocked_queue.erase cid
          ready_queue := m.ready_queue ++ [cid] } :
            CoroutineManager).ready_queue = r :: (t ++ [cid]) := by
        show m.ready_queue ++ [cid] = _
        rw [hq]
        rfl
      have hyld := prepare_next_running (m :=
          { m with
            coroutines := setStatus m.coroutines cid CoroutineStatus.Ready
            blocked_queue := m.blocked_queue.erase cid
            ready_queue := m.ready_queue ++ [cid] })
        hc hf1 hscur hq1
      have hstate2 : (coroutine_yield
          { m with
            coroutines := setStatus m.coroutines cid CoroutineStatus.Ready
            blocked_queue := m.blocked_queue.erase cid
            ready_queue := m.ready_queue ++ [cid] }).2 =
          ({ m with
            coroutines := setStatus (setStatus
              (setStatus m.coroutines cid CoroutineStatus.Ready) cur
                CoroutineStatus.Ready) r CoroutineStatus.Running
            blocked_queue := m.blocked_queue.erase cid
            ready_queue := (t ++ [cid]) ++ [cur]
            current_coroutine := some r } : CoroutineManager) := by
        unfold coroutine_yield
        rw [hyld]
      have hstat : ((findCCB (setStatus (setStatus
          (setStatus m.coroutines cid CoroutineStatus.Ready) cur
            CoroutineStatus.Ready) r CoroutineStatus.Running) cur).map
          (fun c => c.inner.status)) = some CoroutineStatus.Ready := by
        rw [findCCB_setStatus_ne _ _ _ _ (Ne.symm hrne), findCCB_setStatus_self,
          findCCB_setStatus_ne _ _ _ _ hcurne, hfcur]
        rfl
      have hrdy : (findCCB m.coroutines r).isSome = true :=
        hready r (by rw [hq]; exact List.mem_cons_self _ _)
      have hsome2 : (findCCB (setStatus (setStatus m.coroutines cid
          CoroutineStatus.Ready) cur CoroutineStatus.Ready) r).isSome = true := by
        rw [findCCB_setStatus_ne _ _ _ _ hrne, findCCB_setStatus_isSome]
        exact hrdy
      obtain ⟨cf, hcf⟩ := Option.isSome_iff_exists.mp hsome2
      have hstatf : ((findCCB (setStatus (setStatus
          (setStatus m.coroutines cid CoroutineStatus.Ready) cur
            CoroutineStatus.Ready) r CoroutineStatus.Running) r).map
          (fun c => c.inner.status)) = some CoroutineStatus.Running := by
        rw [findCCB_setStatus_self, hcf]
        rfl
      refine ⟨r, t ++ [cid], rfl, ?_, ?_, ?_, ?_⟩
      · rw [hexp, hstate2]
      · rw [hexp, hstate2]
        exact hstatf
      · rw [hexp, hstate2]
      · rw [hexp, hstate2]
        exact hstat

theorem C4_resume_moves_and_switches_witness :
    (∃ pre post, c4state.blocked_queue = pre ++ 2 :: post ∧ 2 ∉ pre ∧
      (c4state.try_resume_coroutine 2).2.blocked_queue = pre ++ post) ∧
    (c4state.try_resume_coroutine 2).2.ready_queue =
      c4state.ready_queue ++ [2] ∧
    (c4state.try_resume_coroutine 2).2.current_coroutine = some 1 ∧
    statusOf (c4state.try_resume_coroutine 2).2 2 =
      some CoroutineStatus.Ready ∧
    (∀ x, x ≠ 2 → statusOf (c4state.try_resume_coroutine 2).2 x =
      statusOf c4state x) ∧
    (sys_coroutine_resume c4state 2).1 = 0 ∧
    (∃ f rest, c4state.ready_queue ++ [2] = f :: rest ∧
      (sys_coroutine_resume c4state 2).2.current_coroutine = some f ∧
      statusOf (sys_coroutine_resume c4state 2).2 f =
        some CoroutineStatus.Running ∧
      (sys_coroutine_resume c4state 2).2.ready_queue = rest ++ [1] ∧
      statusOf (sys_coroutine_resume c4state 2).2 1 =
        some CoroutineStatus.Ready) :=
  C4_resume_moves_and_switches c4state 2 1 (by decide) (by decide) (by decide)
    (by decide) (by decide) (by decide)
    (by
      intro x hx
      rw [show c4state.ready_queue = ([] : List Nat) by decide] at hx
      exact absurd hx (List.not_mem_nil x))

/-! ### Claim C8: FIFO rotation of three coroutines -/

/-- Coroutines A = 1, B = 2, C = 3 created in order on a fresh manager
with no current coroutine. -/
def abc3 : CoroutineManager :=
  runOps [Op.create 10 1 4096, Op.create 20 2 4096, Op.create 30 3 4096]

/-- C8 counterexample: with A, B, C all Ready and no current coroutine,
the very first yield returns −1 (it pops A, marks it Running and records
it current, but `prepare_next_coroutine` reports no switch because there
was no current coroutine) — refuting "every yield succeeds". -/
theorem C8_counterexample :
    abc3.ready_queue = [1, 2, 3] ∧
    (sys_coroutine_yield abc3).1 = -1 ∧
    (sys_coroutine_yield abc3).2.current_coroutine = some 1 := by decide

/-- The manager after `n` calls of `sys_coroutine_yield` starting from
`abc3`. -/
def yieldState (n : Nat) : CoroutineManager :=
  (fun m => (sys_coroutine_yield m).2)^[n] abc3

theorem yieldState_succ (n : Nat) :
    yieldState (n + 1) = (sys_coroutine_yield (yieldState n)).2 := by
  unfold yieldState
  rw [Function.iterate_succ_apply']

theorem yieldState_period (n : Nat) :
    yieldState (n + 4) = yieldState (n + 1) := by
  induction n with
  | zero => decide
  | succ k ih =>
    have h1 : yieldState (k + 1 + 4) =
        (sys_coroutine_yield (yieldState (k + 4))).2 := by
      rw [show k + 1 + 4 = k + 4 + 1 by omega]
      exact yieldState_succ (k + 4)
    rw [h1, ih]
    exact (yieldState_succ (k + 1)).symm

theorem yieldState_mul_add (q r : Nat) :
    yieldState (3 * q + r + 1) = yieldState (r + 1) := by
  induction q with
  | zero => simp
  | succ k ih =>
    have he : 3 * (k + 1) + r + 1 = (3 * k + r) + 4 := by ring
    rw [he, yieldState_period (3 * k + r)]
    exact ih

theorem yieldState_mod (n : Nat) :
    yieldState (n + 1) = yieldState (n % 3 + 1) := by
  calc yieldState (n + 1) = yieldState (3 * (n / 3) + n % 3 + 1) := by
        rw [Nat.div_add_mod]
    _ = yieldState (n % 3 + 1) := yieldState_mul_add _ _

/-- C8 (amended): after creating A, B, C the first yield returns −1 while
promoting A to Running and recording it current; from then on every
yield succeeds (returns 0) and scheduling rotates in strict FIFO order:
after the (n+1)-st yield, the Running current coroutine is A, B, C
cyclically (identifier `n % 3 + 1`), indefinitely. -/
theorem C8_fifo_rotation (n : Nat) :
    (sys_coroutine_yield (yieldState (n + 1))).1 = 0 ∧
    (yieldState (n + 1)).current_coroutine = some (n % 3 + 1) ∧
    statusOf (yieldState (n + 1)) (n % 3 + 1) =
      some CoroutineStatus.Running := by
  have h := yieldState_mod n
  have h3 : n % 3 = 0 ∨ n % 3 = 1 ∨ n % 3 = 2 := by omega
  rcases h3 with h3 | h3 | h3 <;> rw [h, h3] <;> exact (by decide)

/-! ### Claim C5: coroutine exit is not terminal in the code -/

/-- State with coroutine 1 Running and current (created, then scheduled
by a first yield). -/
def c5state : CoroutineManager := runOps [Op.create 10 1 4096, Op.yieldOp]

/-- C5: evaluating the code at the failing input.  `sys_coroutine_exit`
calls `coroutine_block`, so the exiting coroutine is marked Blocked (not
Exited) and pushed onto the blocked queue; a later
`coroutine_resume` on its identifier makes it runnable — indeed Running
— again.  `CoroutineStatus::Exited` is never assigned anywhere in the
code. -/
theorem C5_exit_marks_blocked :
    c5state.current_coroutine = some 1 ∧
    statusOf (sys_coroutine_exit c5state 0).2 1 =
      some CoroutineStatus.Blocked ∧
    1 ∈ (sys_coroutine_exit c5state 0).2.blocked_queue ∧
    statusOf (sys_coroutine_resume (sys_coroutine_exit c5state 0).2 1).2 1 =
      some CoroutineStatus.Running := by decide

/-! ### Claim C1: the waitpid contract -/

theorem findZombie_eq_none {pid : Int} {l : List ChildProc} :
    findZombie pid l = none ↔
      ∀ p ∈ l, (p.is_zombie && pidMatches pid p) = false := by
  induction l with
  | nil => simp [findZombie]
  | cons p rest ih =>
    by_cases hp : (p.is_zombie && pidMatches pid p) = true
    · have hstep : findZombie pid (p :: rest) = some (0, p) := by
        simp [findZombie, hp]
      rw [hstep]
      constructor
      · intro h
        cases h
      · intro h
        have := h p (List.mem_cons_self _ _)
        rw [hp] at this
        cases this
    · have hp' : (p.is_zombie && pidMatches pid p) = false := by
        simpa using hp
      have hstep : findZombie pid (p :: rest) =
          (findZombie pid rest).map (fun ic => (ic.1 + 1, ic.2)) := by
        simp [findZombie, hp']
      rw [hstep]
      constructor
      · intro h
        have hn : findZombie pid rest = none := by
          cases hfz : findZombie pid rest with
          | none => rfl
          | some ic =>
            rw [hfz] at h
            simp at h
        intro q hq
        rcases List.mem_cons.mp hq with h1 | h1
        · rw [h1]
          exact hp'
        · exact ih.mp hn q h1
      · intro h
        rw [ih.mpr (fun q hq => h q (List.mem_cons_of_mem _ hq))]
        rfl

theorem findZombie_mem {pid : Int} {l : List ChildProc} {i : Nat}
    {c : ChildProc} (h : findZombie pid l = some (i, c)) :
    l[i]? = some c ∧ (c.is_zombie && pidMatches pid c) = true := by
  induction l generalizing i with
  | nil => simp [findZombie] at h
  | cons p rest ih =>
    by_cases hp : (p.is_zombie && pidMatches pid p) = true
    · simp only [findZombie, hp, if_true, Option.some.injEq, Prod.mk.injEq] at h
      rw [← h.1, ← h.2]
      exact ⟨by simp, hp⟩
    · have hp' : (p.is_zombie && pidMatches pid p) = false := by
        simpa using hp
      simp only [findZombie, hp', Bool.false_eq_true, if_false,
        Option.map_eq_some'] at h
      rcases h with ⟨⟨i', c'⟩, hrest, heq⟩
      have hi : i = i' + 1 := by
        have := congrArg Prod.fst heq
        simpa using this.symm
      have hc : c = c' := by
        have := congrArg Prod.snd heq
        simpa using this.symm
      subst hi
      subst hc
      have := ih hrest
      simpa using this

theorem findZombie_exists {pid : Int} {l : List ChildProc}
    (h : ∃ p ∈ l, (p.is_zombie && pidMatches pid p) = true) :
    ∃ i c, findZombie pid l = some (i, c) := by
  cases hz : findZombie pid l with
  | none =>
    rcases h with ⟨p, hp, hpt⟩
    rw [findZombie_eq_none.mp hz p hp] at hpt
    cases hpt
  | some ic =>
    rcases ic with ⟨i, c⟩
    exact ⟨i, c, rfl⟩

theorem sys_waitpid_no_match {pid : Int} {ptr : Nat}
    {children : List ChildProc}
    (h : children.any (fun p => pidMatches pid p) = false) :
    sys_waitpid pid ptr children = WaitpidResult.ret (-1) children none := by
  unfold sys_waitpid
  rw [h]
  rfl

theorem sys_waitpid_no_zombie {pid : Int} {ptr : Nat}
    {children : List ChildProc}
    (hany : children.any (fun p => pidMatches pid p) = true)
    (hz : findZombie pid children = none) :
    sys_waitpid pid ptr children = WaitpidResult.ret (-2) children none := by
  unfold sys_waitpid
  rw [hany, hz]
  rfl

theorem sys_waitpid_zombie {pid : Int} {ptr : Nat}
    {children : List ChildProc} {i : Nat} {c : ChildProc}
    (hany : children.any (fun p => pidMatches pid p) = true)
    (hz : findZombie pid children = some (i, c)) :
    sys_waitpid pid ptr children =
      if c.strong_count == 1 then
        WaitpidResult.ret (c.pid : Int) (children.eraseIdx i)
          (some (ptr, c.exit_code))
      else WaitpidResult.panicked := by
  unfold sys_waitpid
  rw [hany, hz]
  rfl

/-- C1: `sys_waitpid(pid, ptr)` returns −1 iff no child matches `pid`
(`pid = −1` matches any child, otherwise a child matches when its
identifier equals `pid` reinterpreted as an unsigned 64-bit value, the
source's `pid as usize` cast); returns −2 iff some child matches but no
matching child is a Zombie; otherwise a matching Zombie child exists at
some index, and either its reference count shows no other owner
(`strong_count = 1`), in which case it is removed from the children
list, its exit code is written through `ptr` and its identifier
returned, or the kernel trips the fatal assertion. -/
theorem C1_waitpid_spec (pid : Int) (ptr : Nat)
    (children : List ChildProc) :
    (sys_waitpid pid ptr children = WaitpidResult.ret (-1) children none ↔
      ∀ p ∈ children, pidMatches pid p = false) ∧
    (sys_waitpid pid ptr children = WaitpidResult.ret (-2) children none ↔
      (∃ p ∈ children, pidMatches pid p = true) ∧
      ∀ p ∈ children, pidMatches pid p = true → p.is_zombie = false) ∧
    ((∃ p ∈ children, pidMatches pid p = true ∧ p.is_zombie = true) →
      ∃ i c, children[i]? = some c ∧ pidMatches pid c = true ∧
        c.is_zombie = true ∧
        (c.strong_count = 1 →
          sys_waitpid pid ptr children =
            WaitpidResult.ret (c.pid : Int) (children.eraseIdx i)
              (some (ptr, c.exit_code))) ∧
        (c.strong_count ≠ 1 →
          sys_waitpid pid ptr children = WaitpidResult.panicked)) := by
  by_cases hany : children.any (fun p => pidMatches pid p) = true
  · have hex : ∃ p ∈ children, pidMatches pid p = true := by
      simpa using hany
    cases hz : findZombie pid children with
    | none =>
      have hno := findZombie_eq_none.mp hz
      refine ⟨?_, ?_, ?_⟩
      · rw [sys_waitpid_no_zombie hany hz]
        simp only [WaitpidResult.ret.injEq]
        constructor
        · intro h
          exact absurd h.1 (by decide)
        · intro h
          rcases hex with ⟨p, hp, hpt⟩
          rw [h p hp] at hpt
          cases hpt
      · rw [sys_waitpid_no_zombie hany hz]
        simp only [WaitpidResult.ret.injEq]
        constructor
        · intro _
          refine ⟨hex, fun p hp hmatch => ?_⟩
          have := hno p hp
          rw [hmatch] at this
          simpa using this
        · intro _
          trivial
      · intro ⟨p, hp, hmatch, hzomb⟩
        exfalso
        have := hno p hp
        rw [hmatch, hzomb] at this
        simp at this
    | some ic =>
      rcases ic with ⟨i, c⟩
      rcases findZombie_mem hz with ⟨hidx, hzc⟩
      have hzc2 : c.is_zombie = true ∧ pidMatches pid c = true := by
        simpa using hzc
      have hczomb : c.is_zombie = true := hzc2.1
      have hcmatch : pidMatches pid c = true := hzc2.2
      refine ⟨?_, ?_, ?_⟩
      · rw [sys_waitpid_zombie hany hz]
        constructor
        · intro h
          by_cases hrc : c.strong_count == 1
          · rw [if_pos hrc] at h
            simp only [WaitpidResult.ret.injEq] at h
            exact absurd h.2.2 (by simp)
          · rw [if_neg hrc] at h
            cases h
        · intro h
          rcases hex with ⟨p, hp, hpt⟩
          rw [h p hp] at hpt
          cases hpt
      · rw [sys_waitpid_zombie hany hz]
        constructor
        · intro h
          by_cases hrc : c.strong_count == 1
          · rw [if_pos hrc] at h
            simp only [WaitpidResult.ret.injEq] at h
            exact absurd h.2.2 (by simp)
          · rw [if_neg hrc] at h
            cases h
        · intro ⟨_, hall⟩
          have := hall c (List.getElem?_mem hidx) hcmatch
          rw [hczomb] at this
          cases this
      · intro _
        refine ⟨i, c, hidx, hcmatch, hczomb, ?_, ?_⟩
        · intro hrc
          rw [sys_waitpid_zombie hany hz, if_pos (by simpa using hrc)]
        · intro hrc
          rw [sys_waitpid_zombie hany hz, if_neg (by simpa using hrc)]
  · have hany' : children.any (fun p => pidMatches pid p) = false := by
      simpa using hany
    have hnomatch : ∀ p ∈ children, pidMatches pid p = false := by
      intro p hp
      by_contra h
      exact hany (List.any_eq_true.mpr ⟨p, hp, by simpa using h⟩)
    refine ⟨?_, ?_, ?_⟩
    · rw [sys_waitpid_no_match hany']
      simp only [WaitpidResult.ret.injEq]
      exact ⟨fun _ => hnomatch, fun _ => trivial⟩
    · rw [sys_waitpid_no_match hany']
      simp only [WaitpidResult.ret.injEq]
      constructor
      · intro h
        exact absurd h.1 (by decide)
      · intro ⟨⟨p, hp, hpt⟩, _⟩
        rw [hnomatch p hp] at hpt
        cases hpt
    · intro ⟨p, hp, hmatch, _⟩
      rw [hnomatch p hp] at hmatch
      cases hmatch

theorem C1_waitpid_spec_witness :
    sys_waitpid 5 100 [⟨2, TaskStatus.Zombie, 7, 1⟩] =
      WaitpidResult.ret (-1) [⟨2, TaskStatus.Zombie, 7, 1⟩] none := by
  exact (C1_waitpid_spec 5 100 [⟨2, TaskStatus.Zombie, 7, 1⟩]).1.mpr
    (by decide)

/-! ### Claim C7: reaping the only Zombie child, then calling again -/

theorem findZombie_append_none {pid : Int} {l₁ : List ChildProc}
    (l₂ : List ChildProc)
    (h : ∀ p ∈ l₁, (p.is_zombie && pidMatches pid p) = false) :
    findZombie pid (l₁ ++ l₂) =
      (findZombie pid l₂).map (fun ic => (l₁.length + ic.1, ic.2)) := by
  induction l₁ with
  | nil =>
    simp only [List.nil_append, List.length_nil]
    cases findZombie pid l₂ <;> simp
  | cons p rest ih =>
    have hp := h p (List.mem_cons_self _ _)
    have hstep : findZombie pid ((p :: rest) ++ l₂) =
        (findZombie pid (rest ++ l₂)).map (fun ic => (ic.1 + 1, ic.2)) := by
      simp [findZombie, hp]
    rw [hstep, ih (fun q hq => h q (List.mem_cons_of_mem _ hq))]
    cases findZombie pid l₂ with
    | none => rfl
    | some ic =>
      simp
      omega

theorem eraseIdx_append_middle (pre post : List ChildProc) (z : ChildProc) :
    (pre ++ z :: post).eraseIdx pre.length = pre ++ post := by
  induction pre with
  | nil => rfl
  | cons x rest ih => simpa [List.eraseIdx] using ih

/-- C7 counterexample: with exactly one Zombie child (pid 2) and one
non-Zombie child (pid 3), the first `waitpid(-1, ptr)` reaps pid 2, but
the second identical call returns −2 (WouldBlock, the remaining child
matches but is not a Zombie), not −1 as claimed. -/
theorem C7_counterexample :
    sys_waitpid (-1) 100
        [⟨2, TaskStatus.Zombie, 7, 1⟩, ⟨3, TaskStatus.Running, 0, 2⟩] =
      WaitpidResult.ret 2 [⟨3, TaskStatus.Running, 0, 2⟩]
        (some (100, 7)) ∧
    sys_waitpid (-1) 100 [⟨3, TaskStatus.Running, 0, 2⟩] =
      WaitpidResult.ret (-2) [⟨3, TaskStatus.Running, 0, 2⟩] none := by
  decide

/-- C7 (amended): for a process whose children contain exactly one Zombie
child `z` (with sole ownership) among any non-Zombie children,
`waitpid(-1, ptr)` returns `z`'s identifier, writes its exit code
through `ptr`, and removes it from the children list; a second identical
call, made before any other child exits, returns −2 if non-Zombie
children remain and −1 if the Zombie was the only child. -/
theorem C7_waitpid_single_zombie (ptr : Nat) (pre post : List ChildProc)
    (z : ChildProc) (hz : z.is_zombie = true) (hrc : z.strong_count = 1)
    (hpre : ∀ p ∈ pre, p.is_zombie = false)
    (hpost : ∀ p ∈ post, p.is_zombie = false) :
    sys_waitpid (-1) ptr (pre ++ z :: post) =
      WaitpidResult.ret (z.pid : Int) (pre ++ post)
        (some (ptr, z.exit_code)) ∧
    (pre ++ post ≠ [] →
      sys_waitpid (-1) ptr (pre ++ post) =
        WaitpidResult.ret (-2) (pre ++ post) none) ∧
    (pre ++ post = [] →
      sys_waitpid (-1) ptr (pre ++ post) =
        WaitpidResult.ret (-1) [] none) := by
  have hany : (pre ++ z :: post).any (fun p => pidMatches (-1) p) = true := by
    simp [List.any_append, pidMatches]
  have hfz : findZombie (-1) (pre ++ z :: post) = some (pre.length, z) := by
    rw [findZombie_append_none _ (fun p hp => by simp [hpre p hp])]
    have hzc : findZombie (-1) (z :: post) = some (0, z) := by
      simp [findZombie, hz, pidMatches]
    rw [hzc]
    simp
  refine ⟨?_, ?_, ?_⟩
  · rw [sys_waitpid_zombie hany hfz, if_pos (by simp [hrc]),
      eraseIdx_append_middle]
  · intro hne
    have hany2 : (pre ++ post).any (fun p => pidMatches (-1) p) = true := by
      cases hl : pre ++ post with
      | nil => exact absurd hl hne
      | cons a t => simp [pidMatches]
    have hfz2 : findZombie (-1) (pre ++ post) = none := by
      apply findZombie_eq_none.mpr
      intro p hp
      rcases List.mem_append.mp hp with h1 | h1
      · simp [hpre p h1]
      · simp [hpost p h1]
    exact sys_waitpid_no_zombie hany2 hfz2
  · intro he
    rw [he]
    rfl

theorem C7_waitpid_single_zombie_witness :
    sys_waitpid (-1) 50
        (([] : List ChildProc) ++ (⟨9, TaskStatus.Zombie, 3, 1⟩ : ChildProc) :: []) =
      WaitpidResult.ret ((9 : Nat) : Int) ([] ++ [])
        (some (50, 3)) ∧
    (([] : List ChildProc) ++ [] ≠ [] →
      sys_waitpid (-1) 50 (([] : List ChildProc) ++ []) =
        WaitpidResult.ret (-2) ([] ++ []) none) ∧
    (([] : List ChildProc) ++ [] = [] →
      sys_waitpid (-1) 50 (([] : List ChildProc) ++ []) =
        WaitpidResult.ret (-1) [] none) :=
  C7_waitpid_single_zombie 50 [] [] ⟨9, TaskStatus.Zombie, 3, 1⟩
    (by decide) rfl (by simp) (by simp)

/-! ### Claim C6: the fork contract -/

/-- C6: `sys_fork` clones the parent into a child carrying the freshly
allocated identifier, zeroes the child's saved return-value slot
(register `a0 = x[10]` of its trap context), appends the child to the
Task Manager's Ready FIFO (transferring no control — `sys_fork` simply
returns in the parent), and returns the child's identifier, which is
positive and distinct from the parent's; the freshness hypotheses come
from the spec-modelled pid allocator (a fresh pid differs from every
allocated pid; pid 0 is held by the root process). -/
theorem C6_fork_spec (parent : ForkTCB) (fresh_pid : Nat)
    (ready : List ForkTCB) (allocated : List Nat)
    (hparent : parent.pid ∈ allocated) (hroot : 0 ∈ allocated)
    (hfresh : fresh_pid ∉ allocated) :
    (sys_fork parent fresh_pid ready).1 = (fresh_pid : Int) ∧
    (sys_fork parent fresh_pid ready).2.1.pid = fresh_pid ∧
    (sys_fork parent fresh_pid ready).2.1.trap_cx.x 10 = 0 ∧
    (sys_fork parent fresh_pid ready).2.2 =
      ready ++ [(sys_fork parent fresh_pid ready).2.1] ∧
    fresh_pid ≠ parent.pid ∧ 0 < fresh_pid := by
  refine ⟨rfl, rfl, by simp [sys_fork, ForkTCB.fork], rfl, ?_, ?_⟩
  · intro h
    rw [h] at hfresh
    exact hfresh hparent
  · rcases Nat.eq_zero_or_pos fresh_pid with h | h
    · rw [h] at hfresh
      exact absurd hroot hfresh
    · exact h

theorem C6_fork_spec_witness :
    (sys_fork ⟨1, ⟨fun _ => 5⟩⟩ 2 []).1 = (2 : Int) ∧
    (sys_fork ⟨1, ⟨fun _ => 5⟩⟩ 2 []).2.1.pid = 2 ∧
    (sys_fork ⟨1, ⟨fun _ => 5⟩⟩ 2 []).2.1.trap_cx.x 10 = 0 ∧
    (sys_fork ⟨1, ⟨fun _ => 5⟩⟩ 2 []).2.2 =
      [] ++ [(sys_fork ⟨1, ⟨fun _ => 5⟩⟩ 2 []).2.1] ∧
    (2 : Nat) ≠ 1 ∧ 0 < (2 : Nat) :=
  C6_fork_spec ⟨1, ⟨fun _ => 5⟩⟩ 2 [] [0, 1] (by simp) (by simp) (by simp)

end RCore
